import Mathlib

/-!
# lua-clang: the Lua binding of libclang in `src/luaclang.c`

A shallow embedding of `luaclang.c` and of the part of the Lua 5.3 C API it uses.

* The Lua state is an explicit record: the stack of the running C function, the heap of
  tables and of full userdata blocks, the registry, and the log of native calls.
* libclang is a black box.  Every native function that returns a value is a field of `Env`
  that receives the log of all earlier native calls, so its answer may depend on the whole
  history.  Every native call, destructors included, is appended to the log.  The log is the
  record of what the binding asks of libclang.  The model does not decide whether a call
  respects the contract of libclang: a call on a payload whose release is already in the log
  (a double free, a use after release) is answered like any other, although its real behaviour
  is undefined.  Theorems about such calls therefore state that the binding makes the call, in
  which state and with which continuation, and nothing about what libclang does with it.
* A C function of the binding is a function `LState → Outcome Nat`: it returns normally with
  the number of results (the top values of the stack), raises a Lua error, or leaves the model
  (`Outcome.undefined`: undefined behaviour of the C code of the binding and of the Lua
  runtime it calls, such as reading a native string buffer after its release, or host
  machinery that is not embedded, such as metamethod dispatch).

Not modelled: memory exhaustion in the Lua allocator, stack overflow, garbage collection,
block sizes (a userdata block holds one typed native value).
-/

namespace LuaClang

/-! ## Native values -/

/-- Native `CXIndex`: a pointer, `0` is NULL. -/
abbrev CXIndex := Nat

/-- Native `CXTranslationUnit`: a pointer, `0` is NULL. -/
abbrev CXTranslationUnit := Nat

/-- Native `CXCursor`: kind, xdata and three data pointers. -/
structure CXCursor where
  kind : Nat
  xdata : Int
  data : Nat × Nat × Nat
deriving DecidableEq, Repr

/-- Native `CXType`: kind and two data pointers. -/
structure CXType where
  kind : Nat
  data : Nat × Nat
deriving DecidableEq, Repr

/-- Native `CXString`: data pointer and private flags. -/
structure CXString where
  data : Nat
  private_flags : Nat
deriving DecidableEq, Repr

/-- A `const char *` into the buffer of a native string: the string that owns the buffer, the
length of the log when the pointer was handed out, and the characters behind it. -/
structure CStr where
  owner : CXString
  since : Nat
  chars : String
deriving DecidableEq, Repr

/-- One call into libclang, with its arguments. -/
inductive NativeCall where
  | createIndex (excludeDeclarationsFromPCH displayDiagnostics : Int)
  | disposeIndex (index : CXIndex)
  | parseTranslationUnit (CIdx : CXIndex) (source_filename : Option String)
      (command_line_args : List (Option String)) (num_unsaved_files options : Nat)
  | disposeTranslationUnit (tu : CXTranslationUnit)
  | getTranslationUnitCursor (tu : CXTranslationUnit)
  | Cursor_isNull (cursor : CXCursor)
  | getCursorSpelling (cursor : CXCursor)
  | getCString (string : CXString)
  | disposeString (string : CXString)
deriving DecidableEq, Repr

/-! ## Lua values and state -/

/-- The C functions of `luaclang.c` that are registered in the module table, and any other
C function of the host. -/
inductive CFunction where
  | create_CXIndex
  | dispose_CXIndex
  | parse_TU
  | dispose_CXTU
  | get_TU_cursor
  | get_cursor_spelling
  | foreign (addr : Nat)
deriving DecidableEq, Repr

/-- A Lua number: integer or float subtype (a float is kept as its bit pattern). -/
inductive LuaNumber where
  | int (i : Int)
  | float (bits : Nat)
deriving DecidableEq, Repr

/-- A Lua value.  Tables and full userdata are references into the heap. -/
inductive LuaValue where
  | nil
  | boolean (b : Bool)
  | number (n : LuaNumber)
  | string (s : String)
  | lightuserdata (p : Nat)
  | userdata (ref : Nat)
  | table (ref : Nat)
  | cfunction (f : CFunction)
  | luafunction (ref : Nat)
  | thread (ref : Nat)
deriving DecidableEq, Repr

/-- Contents of a userdata block. -/
inductive Payload where
  | uninit
  | index (v : CXIndex)
  | tu (v : CXTranslationUnit)
  | cursor (v : CXCursor)
  | type (v : CXType)
  | bytes (raw : List Nat)
deriving DecidableEq, Repr

/-- A full userdata: its block and its metatable, if any. -/
structure UData where
  payload : Payload
  metatable : Option Nat
deriving DecidableEq, Repr

/-- A table: its raw fields and its metatable, if any. -/
structure LTable where
  fields : List (LuaValue × LuaValue)
  metatable : Option Nat
deriving DecidableEq, Repr

/-- The Lua state seen by a running C function. -/
structure LState where
  stack : List LuaValue
  tables : List LTable
  udata : List UData
  registry : List (LuaValue × LuaValue)
  lightMt : Option Nat
  trace : List NativeCall
deriving DecidableEq, Repr

/-- A C pointer handed out by the Lua API: the block of a full userdata, or a raw address. -/
inductive Ptr where
  | box (ref : Nat)
  | raw (addr : Nat)
deriving DecidableEq, Repr

/-- Errors raised through `lua_error`. -/
inductive LuaError where
  | typeMismatch (arg : Int) (tname : String)
  | indexNonTable (v : LuaValue)
deriving DecidableEq, Repr

/-- Result of running a piece of C code on a Lua state. -/
inductive Outcome (α : Type) where
  | ok (val : α) (st : LState)
  | raise (err : LuaError) (st : LState)
  | undefined
deriving DecidableEq, Repr

/-- Computations over the Lua state. -/
def M (α : Type) : Type := LState → Outcome α

/-- Sequencing: an error or an undefined step ends the computation. -/
def M.bind {α β : Type} (m : M α) (f : α → M β) : M β := fun s =>
  match m s with
  | .ok a s1 => f a s1
  | .raise e s1 => .raise e s1
  | .undefined => .undefined

/-- Return a value without touching the state. -/
def M.pure {α : Type} (a : α) : M α := fun s => .ok a s

instance : Monad M where
  pure := M.pure
  bind := M.bind

/-- The black boxes: libclang and the number formatter of the Lua runtime. -/
structure Env where
  createIndex : List NativeCall → Int → Int → CXIndex
  parseTranslationUnit : List NativeCall → CXIndex → Option String → List (Option String) →
    Nat → Nat → CXTranslationUnit
  getTranslationUnitCursor : List NativeCall → CXTranslationUnit → CXCursor
  Cursor_isNull : List NativeCall → CXCursor → Int
  getCursorSpelling : List NativeCall → CXCursor → CXString
  getCString : List NativeCall → CXString → Option String
  tostringbuff : LuaNumber → String

/-! ## The Lua 5.3 C API, as far as `luaclang.c` uses it -/

/-- Pseudo-index of the registry. -/
def LUA_REGISTRYINDEX : Int := -1001000

/-- Value at an acceptable stack index (`none` for an index above the top). -/
def index2value (st : List LuaValue) (idx : Int) : Option LuaValue :=
  if 0 < idx then st[(idx - 1).toNat]?
  else if idx < 0 ∧ (-idx).toNat ≤ st.length then st[st.length - (-idx).toNat]?
  else none

/-- Raw read of a field. -/
def rawget (fs : List (LuaValue × LuaValue)) (k : LuaValue) : LuaValue :=
  (fs.lookup k).getD .nil

/-- Raw write of a field; writing nil removes the key. -/
def rawset (fs : List (LuaValue × LuaValue)) (k v : LuaValue) : List (LuaValue × LuaValue) :=
  let rest := fs.filter (fun kv => kv.1 != k)
  if v = .nil then rest else rest ++ [(k, v)]

/-- The API function `lua_toboolean`: 0 for nil, false and an absent value, 1 otherwise. -/
def lua_toboolean (idx : Int) : M Int := fun s =>
  match index2value s.stack idx with
  | none => .ok 0 s
  | some .nil => .ok 0 s
  | some (.boolean false) => .ok 0 s
  | some _ => .ok 1 s

/-- Push a value. -/
def push (v : LuaValue) : M Unit := fun s =>
  .ok () { s with stack := s.stack ++ [v] }

/-- The API function `lua_pushnil`. -/
def lua_pushnil : M Unit := push .nil

/-- The API function `lua_pushstring`: copies the C string; a NULL pointer pushes nil. -/
def lua_pushstring (str : Option String) : M Unit :=
  match str with
  | some c => push (.string c)
  | none => push .nil

/-- The API function `lua_pushvalue`. -/
def lua_pushvalue (idx : Int) : M Unit := fun s =>
  match index2value s.stack idx with
  | some v => push v s
  | none => .undefined

/-- The API function `lua_pushcfunction`. -/
def lua_pushcfunction (f : CFunction) : M Unit := push (.cfunction f)

/-- The API function `lua_pop` for one value. -/
def lua_pop1 : M Unit := fun s =>
  match s.stack.getLast? with
  | none => .undefined
  | some _ => .ok () { s with stack := s.stack.dropLast }

/-- The API function `lua_newtable`: a fresh empty table is pushed. -/
def lua_newtable : M Unit := fun s =>
  .ok () { s with stack := s.stack ++ [.table s.tables.length],
                  tables := s.tables ++ [{ fields := [], metatable := none }] }

/-- The API function `lua_newuserdata`: a fresh block, without metatable, is pushed and its
address returned. -/
def lua_newuserdata : M Ptr := fun s =>
  .ok (.box s.udata.length)
    { s with stack := s.stack ++ [.userdata s.udata.length],
             udata := s.udata ++ [{ payload := .uninit, metatable := none }] }

/-- The API function `lua_getfield` with a string key, for the registry and for tables
without metatable (no metamethod is run). -/
def lua_getfield (idx : Int) (k : String) : M Unit := fun s =>
  if idx = LUA_REGISTRYINDEX then push (rawget s.registry (.string k)) s
  else
    match index2value s.stack idx with
    | some (.table t) =>
      match s.tables[t]? with
      | some tb =>
        match tb.metatable with
        | none => push (rawget tb.fields (.string k)) s
        | some _ => .undefined
      | none => .undefined
    | _ => .undefined

/-- The API function `lua_setfield` with a string key: pops the value and stores it.  The
registry and tables without metatable are written raw; a table with a metatable leaves the
model; any other value raises the indexing error. -/
def lua_setfield (idx : Int) (k : String) : M Unit := fun s =>
  match s.stack.getLast? with
  | none => .undefined
  | some v =>
    if idx = LUA_REGISTRYINDEX then
      .ok () { s with stack := s.stack.dropLast, registry := rawset s.registry (.string k) v }
    else
      match index2value s.stack idx with
      | some (.table t) =>
        match s.tables[t]? with
        | some tb =>
          match tb.metatable with
          | none =>
            .ok () { s with stack := s.stack.dropLast,
                            tables := s.tables.set t { tb with fields := rawset tb.fields (.string k) v } }
          | some _ => .undefined
        | none => .undefined
      | some (.userdata _) => .undefined
      | some w => .raise (.indexNonTable w) s
      | none => .undefined

/-- The auxiliary shorthand `luaL_getmetatable`: push the registry entry of a name. -/
def luaL_getmetatable (tname : String) : M Unit :=
  lua_getfield LUA_REGISTRYINDEX tname

/-- The API function `lua_setmetatable`: pops a table or nil and makes it the metatable of the
value at the index. -/
def lua_setmetatable (idx : Int) : M Unit := fun s =>
  match s.stack.getLast? with
  | none => .undefined
  | some top =>
    let mt : Option (Option Nat) :=
      match top with
      | .nil => some none
      | .table m => some (some m)
      | _ => none
    match mt with
    | none => .undefined
    | some newMt =>
      match index2value s.stack idx with
      | some (.userdata r) =>
        match s.udata[r]? with
        | some u =>
          .ok () { s with stack := s.stack.dropLast,
                          udata := s.udata.set r { u with metatable := newMt } }
        | none => .undefined
      | some (.table t) =>
        match s.tables[t]? with
        | some tb =>
          .ok () { s with stack := s.stack.dropLast,
                          tables := s.tables.set t { tb with metatable := newMt } }
        | none => .undefined
      | some (.lightuserdata _) =>
        .ok () { s with stack := s.stack.dropLast, lightMt := newMt }
      | _ => .undefined

/-- The API function `lua_touserdata`: the block address of a full userdata, the pointer of a
light userdata, NULL otherwise. -/
def lua_touserdata (s : LState) (idx : Int) : Option Ptr :=
  match index2value s.stack idx with
  | some (.userdata r) => some (.box r)
  | some (.lightuserdata p) => if p = 0 then none else some (.raw p)
  | _ => none

/-- The metatable that `lua_getmetatable` would push for the value at the index. -/
def metatableOf (s : LState) (idx : Int) : Option Nat :=
  match index2value s.stack idx with
  | some (.userdata r) =>
    match s.udata[r]? with
    | some u => u.metatable
    | none => none
  | some (.table t) =>
    match s.tables[t]? with
    | some tb => tb.metatable
    | none => none
  | some (.lightuserdata _) => s.lightMt
  | _ => none

/-- The auxiliary function `luaL_testudata`: the address when the value is a userdata whose
metatable is raw-equal to the registry entry of the name, NULL otherwise.  The two metatables
it pushes are popped again, so the stack is as before. -/
def luaL_testudata (s : LState) (ud : Int) (tname : String) : Option Ptr :=
  match lua_touserdata s ud with
  | some p =>
    match metatableOf s ud with
    | some m => if rawget s.registry (.string tname) = .table m then some p else none
    | none => none
  | none => none

/-- The auxiliary function `luaL_checkudata`: as `luaL_testudata`, raising the type error of
the argument on NULL. -/
def luaL_checkudata (ud : Int) (tname : String) : M Ptr := fun s =>
  match luaL_testudata s ud tname with
  | some p => .ok p s
  | none => .raise (.typeMismatch ud tname) s

/-- The API shorthand `lua_tostring`: the C string of a string; a number is first converted in place;
NULL for every other value. -/
def lua_tostring (env : Env) (idx : Int) : M (Option String) := fun s =>
  match index2value s.stack idx with
  | some (.string c) => .ok (some c) s
  | some (.number n) =>
    let pos : Nat := if 0 < idx then (idx - 1).toNat else s.stack.length - (-idx).toNat
    .ok (some (env.tostringbuff n)) { s with stack := s.stack.set pos (.string (env.tostringbuff n)) }
  | _ => .ok none s

/-- The auxiliary function `luaL_newmetatable` (Lua 5.3): when the registry already has the
name, the old value is left on the stack and 0 returned; otherwise a new table with `__name`
is created, stored in the registry, left on the stack, and 1 returned. -/
def luaL_newmetatable (tname : String) : M Int := do
  luaL_getmetatable tname
  let s ← (fun s => Outcome.ok s s : M LState)
  if s.stack.getLast? ≠ some .nil then
    return 0
  else
    lua_pop1
    lua_newtable
    lua_pushstring (some tname)
    lua_setfield (-2) "__name"
    lua_pushvalue (-1)
    lua_setfield LUA_REGISTRYINDEX tname
    return 1

/-- The auxiliary function `luaL_setfuncs` without upvalues: every entry of the array is stored
in the table on top of the stack. -/
def luaL_setfuncs : List (String × CFunction) → M Unit
  | [] => pure ()
  | (name, f) :: rest => do
    lua_pushcfunction f
    lua_setfield (-2) name
    luaL_setfuncs rest

/-- Write a native value into a block (`*p = v`). -/
def store (p : Ptr) (v : Payload) : M Unit := fun s =>
  match p with
  | .box r =>
    match s.udata[r]? with
    | some u => .ok () { s with udata := s.udata.set r { u with payload := v } }
    | none => .undefined
  | .raw _ => .undefined

/-- Read a block (`*p`). -/
def load (p : Ptr) : M Payload := fun s =>
  match p with
  | .box r =>
    match s.udata[r]? with
    | some u => .ok u.payload s
    | none => .undefined
  | .raw _ => .undefined

/-- Read a block as a `CXIndex`. -/
def loadIndex (p : Ptr) : M CXIndex := fun s =>
  match load p s with
  | .ok (.index v) s1 => .ok v s1
  | .raise e s1 => .raise e s1
  | _ => .undefined

/-- Read a block as a `CXTranslationUnit`. -/
def loadTU (p : Ptr) : M CXTranslationUnit := fun s =>
  match load p s with
  | .ok (.tu v) s1 => .ok v s1
  | .raise e s1 => .raise e s1
  | _ => .undefined

/-- Read a block as a `CXCursor`. -/
def loadCursor (p : Ptr) : M CXCursor := fun s =>
  match load p s with
  | .ok (.cursor v) s1 => .ok v s1
  | .raise e s1 => .raise e s1
  | _ => .undefined

/-! ## libclang calls -/

/-- Append a native call to the log. -/
def logCall (c : NativeCall) : M Unit := fun s =>
  .ok () { s with trace := s.trace ++ [c] }

/-- Native `clang_createIndex`. -/
def clang_createIndex (env : Env) (a b : Int) : M CXIndex := fun s =>
  .ok (env.createIndex s.trace a b) { s with trace := s.trace ++ [.createIndex a b] }

/-- Native `clang_disposeIndex`. -/
def clang_disposeIndex (i : CXIndex) : M Unit := logCall (.disposeIndex i)

/-- Native `clang_parseTranslationUnit`; no unsaved files are ever passed. -/
def clang_parseTranslationUnit (env : Env) (i : CXIndex) (source_filename : Option String)
    (args : List (Option String)) (num_unsaved_files options : Nat) : M CXTranslationUnit :=
  fun s =>
  .ok (env.parseTranslationUnit s.trace i source_filename args num_unsaved_files options)
    { s with trace := s.trace ++
        [.parseTranslationUnit i source_filename args num_unsaved_files options] }

/-- Native `clang_disposeTranslationUnit`. -/
def clang_disposeTranslationUnit (t : CXTranslationUnit) : M Unit :=
  logCall (.disposeTranslationUnit t)

/-- Native `clang_getTranslationUnitCursor`. -/
def clang_getTranslationUnitCursor (env : Env) (t : CXTranslationUnit) : M CXCursor := fun s =>
  .ok (env.getTranslationUnitCursor s.trace t)
    { s with trace := s.trace ++ [.getTranslationUnitCursor t] }

/-- Native `clang_Cursor_isNull`. -/
def clang_Cursor_isNull (env : Env) (c : CXCursor) : M Int := fun s =>
  .ok (env.Cursor_isNull s.trace c) { s with trace := s.trace ++ [.Cursor_isNull c] }

/-- Native `clang_getCursorSpelling`. -/
def clang_getCursorSpelling (env : Env) (c : CXCursor) : M CXString := fun s =>
  .ok (env.getCursorSpelling s.trace c) { s with trace := s.trace ++ [.getCursorSpelling c] }

/-- Native `clang_getCString`: NULL, or a pointer into the buffer of the string. -/
def clang_getCString (env : Env) (x : CXString) : M (Option CStr) := fun s =>
  .ok ((env.getCString s.trace x).map (fun c => CStr.mk x (s.trace.length + 1) c))
    { s with trace := s.trace ++ [.getCString x] }

/-- The characters that a reader of a native `const char *` finds.  A NULL pointer is not
read.  Once `clang_disposeString` has been called on the owner after the pointer was handed
out, the buffer is gone and the read is undefined. -/
def cstring (p : Option CStr) : M (Option String) := fun s =>
  match p with
  | none => .ok none s
  | some q =>
    if NativeCall.disposeString q.owner ∈ s.trace.drop q.since then .undefined
    else .ok (some q.chars) s

/-- The API function `lua_pushstring` on a pointer that libclang handed out: in one step the
characters are read through the pointer and the copy is pushed. -/
def lua_pushstring_from (p : Option CStr) : M Unit :=
  cstring p >>= lua_pushstring

/-- Native `clang_disposeString`. -/
def clang_disposeString (x : CXString) : M Unit := logCall (.disposeString x)

/-- Constant `CXTranslationUnit_None`. -/
def CXTranslationUnit_None : Nat := 0

/-! ## `luaclang.c` -/

/-- Registry name of the Index metatable. -/
def INDEX_METATABLE : String := "Clang.Index"

/-- Registry name of the translation unit metatable. -/
def TU_METATABLE : String := "Clang.TU"

/-- Registry name of the Cursor metatable. -/
def CURSOR_METATABLE : String := "Clang.Cursor"

/-- Registry name of the Type metatable. -/
def TYPE_METATABLE : String := "Clang.Type"

/-- Source `new_CXIndex`. -/
def new_CXIndex : M Ptr := do
  let idx ← lua_newuserdata
  luaL_getmetatable INDEX_METATABLE
  lua_setmetatable (-2)
  return idx

/-- Source `to_CXIndex`. -/
def to_CXIndex (n : Int) : M Ptr := luaL_checkudata n INDEX_METATABLE

/-- Source `new_CXTU`. -/
def new_CXTU : M Ptr := do
  let tu ← lua_newuserdata
  luaL_getmetatable TU_METATABLE
  lua_setmetatable (-2)
  return tu

/-- Source `to_CXTU`. -/
def to_CXTU (n : Int) : M Ptr := luaL_checkudata n TU_METATABLE

/-- Source `new_CXCursor`. -/
def new_CXCursor : M Ptr := do
  let cur ← lua_newuserdata
  luaL_getmetatable CURSOR_METATABLE
  lua_setmetatable (-2)
  return cur

/-- Source `to_CXCursor`. -/
def to_CXCursor (n : Int) : M Ptr := luaL_checkudata n CURSOR_METATABLE

/-- Source `new_CXType`. -/
def new_CXType : M Ptr := do
  let t ← lua_newuserdata
  luaL_getmetatable TYPE_METATABLE
  lua_setmetatable (-2)
  return t

/-- Source `create_CXIndex`. -/
def create_CXIndex (env : Env) : M Nat := do
  let exclude_pch ← lua_toboolean 1
  let diagnostics ← lua_toboolean 2
  let idx ← new_CXIndex
  let v ← clang_createIndex env exclude_pch diagnostics
  store idx (.index v)
  return 1

/-- Source array `clang_function`. -/
def clang_function : List (String × CFunction) :=
  [("createIndex", .create_CXIndex)]

/-- Source `dispose_CXIndex`. -/
def dispose_CXIndex : M Nat := do
  let idx ← to_CXIndex 1
  let v ← loadIndex idx
  clang_disposeIndex v
  return 0

/-- Source `parse_TU`. -/
def parse_TU (env : Env) : M Nat := do
  let idx ← to_CXIndex 1
  let file_name ← lua_tostring env 2
  let args := [file_name]
  let tu ← new_CXTU
  let i ← loadIndex idx
  let v ← clang_parseTranslationUnit env i none args 0 CXTranslationUnit_None
  store tu (.tu v)
  return 1

/-- Source array `index_functions`. -/
def index_functions : List (String × CFunction) :=
  [("disposeIndex", .dispose_CXIndex), ("parseTU", .parse_TU)]

/-- Source `dispose_CXTU`. -/
def dispose_CXTU : M Nat := do
  let tu ← to_CXTU 1
  let v ← loadTU tu
  clang_disposeTranslationUnit v
  return 0

/-- Source `get_TU_cursor`. -/
def get_TU_cursor (env : Env) : M Nat := do
  let tu ← to_CXTU 1
  let cur ← new_CXCursor
  let t ← loadTU tu
  let c ← clang_getTranslationUnitCursor env t
  store cur (.cursor c)
  let c1 ← loadCursor cur
  let isNull ← clang_Cursor_isNull env c1
  if isNull ≠ 0 then
    lua_pushnil
  return 1

/-- Source array `tu_functions`. -/
def tu_functions : List (String × CFunction) :=
  [("disposeTU", .dispose_CXTU), ("getTUCursor", .get_TU_cursor)]

/-- Source `get_cursor_spelling`.  In `lua_pushstring(L, clang_getCString(name))` the pointer
that libclang returns is read by `lua_pushstring`, which copies the characters. -/
def get_cursor_spelling (env : Env) : M Nat := do
  let cur ← to_CXCursor 1
  let c ← loadCursor cur
  let name ← clang_getCursorSpelling env c
  let p ← clang_getCString env name
  lua_pushstring_from p
  clang_disposeString name
  return 1

/-- Source array `cursor_functions`. -/
def cursor_functions : List (String × CFunction) :=
  [("getCursorSpelling", .get_cursor_spelling)]

/-- Source `new_metatable`. -/
def new_metatable (name : String) : M Unit := do
  let _ ← luaL_newmetatable name
  lua_pushvalue (-1)
  lua_setfield (-2) "__index"

/-- Source `luaopen_luaclang`. -/
def luaopen_luaclang : M Nat := do
  new_metatable INDEX_METATABLE
  new_metatable TU_METATABLE
  new_metatable CURSOR_METATABLE
  lua_newtable
  luaL_setfuncs clang_function
  luaL_setfuncs index_functions
  luaL_setfuncs tu_functions
  luaL_setfuncs cursor_functions
  return 1

/-! ## Calls from the host -/

/-- Run a registered C function on the current frame. -/
def CFunction.run (env : Env) : CFunction → M Nat
  | .create_CXIndex => LuaClang.create_CXIndex env
  | .dispose_CXIndex => LuaClang.dispose_CXIndex
  | .parse_TU => LuaClang.parse_TU env
  | .dispose_CXTU => LuaClang.dispose_CXTU
  | .get_TU_cursor => LuaClang.get_TU_cursor env
  | .get_cursor_spelling => LuaClang.get_cursor_spelling env
  | .foreign _ => fun _ => .undefined

/-- The host calls a C function: the arguments form the stack of a new frame, and the results
are the top values of that stack, as many as the function announces. -/
def hostCall (env : Env) (f : CFunction) (args : List LuaValue) (s : LState) :
    Outcome (List LuaValue) :=
  match f.run env { s with stack := args } with
  | .ok n s1 => .ok (s1.stack.drop (s1.stack.length - n)) s1
  | .raise e s1 => .raise e s1
  | .undefined => .undefined

/-- The metatable name that a handle-taking operation expects of its first argument. -/
def expectedTag : CFunction → Option String
  | .dispose_CXIndex => some INDEX_METATABLE
  | .parse_TU => some INDEX_METATABLE
  | .dispose_CXTU => some TU_METATABLE
  | .get_TU_cursor => some TU_METATABLE
  | .get_cursor_spelling => some CURSOR_METATABLE
  | _ => none

/-- The metatable of a value that is a userdata, full or light. -/
def userdataMetatable (s : LState) : LuaValue → Option Nat
  | .userdata r =>
    match s.udata[r]? with
    | some u => u.metatable
    | none => none
  | .lightuserdata _ => s.lightMt
  | _ => none

/-- The argument is present, is a userdata, and its metatable is the registry entry of the
name. -/
def hasTag (s : LState) (arg : Option LuaValue) (tname : String) : Bool :=
  match arg with
  | some v =>
    match userdataMetatable s v with
    | some m => decide (rawget s.registry (.string tname) = .table m)
    | none => false
  | none => false

/-- The payload of a handle of the named kind: the value is a full userdata whose metatable is
the registry entry of the name, and the result is the content of its block. -/
def handlePayload (s : LState) (v : LuaValue) (tname : String) : Option Payload :=
  match v with
  | .userdata r =>
    match s.udata[r]? with
    | some u =>
      match u.metatable with
      | some m => if rawget s.registry (.string tname) = .table m then some u.payload else none
      | none => none
    | none => none
  | _ => none

/-- The table registered under a name, if any. -/
def tagOf (s : LState) (tname : String) : Option Nat :=
  match rawget s.registry (.string tname) with
  | .table m => some m
  | _ => none

/-- State after module initialisation: the three names registered by `luaopen_luaclang` are
bound to three different tables. -/
def initialised (s : LState) : Bool :=
  match tagOf s INDEX_METATABLE, tagOf s TU_METATABLE, tagOf s CURSOR_METATABLE with
  | some mi, some mt, some mc => mi != mt && mi != mc && mt != mc
  | _, _, _ => false

/-- State before the module is loaded: none of its three names is in the registry. -/
def namesFree (s : LState) : Bool :=
  decide (rawget s.registry (.string INDEX_METATABLE) = .nil) &&
  decide (rawget s.registry (.string TU_METATABLE) = .nil) &&
  decide (rawget s.registry (.string CURSOR_METATABLE) = .nil)

/-- Number of times a native call occurs in a log. -/
def callCount (c : NativeCall) (tr : List NativeCall) : Nat := tr.count c

/-- The results that a C function hands back: the top values of its stack. -/
def results (n : Nat) (s : LState) : List LuaValue :=
  s.stack.drop (s.stack.length - n)

/-- Fields of a table after storing every entry of a function array. -/
def setfuncsFields (l : List (String × CFunction)) (fs : List (LuaValue × LuaValue)) :
    List (LuaValue × LuaValue) :=
  l.foldl (fun acc e => rawset acc (.string e.1) (.cfunction e.2)) fs

/-- The six entries of the module table. -/
def moduleFields : List (LuaValue × LuaValue) :=
  [(.string "createIndex", .cfunction .create_CXIndex),
   (.string "disposeIndex", .cfunction .dispose_CXIndex),
   (.string "parseTU", .cfunction .parse_TU),
   (.string "disposeTU", .cfunction .dispose_CXTU),
   (.string "getTUCursor", .cfunction .get_TU_cursor),
   (.string "getCursorSpelling", .cfunction .get_cursor_spelling)]

/-- Fields of a metatable made by `new_metatable` for a fresh name. -/
def metatableFields (name : String) (self : Nat) : List (LuaValue × LuaValue) :=
  rawset (rawset [] (.string "__name") (.string name)) (.string "__index") (.table self)

/-- State in which `luaopen_luaclang` returns when none of its names was registered: three
metatables and the module table are new, and three registry entries are written. -/
def afterOpen (s : LState) : LState :=
  { s with
    stack := s.stack ++ [.table s.tables.length, .table (s.tables.length + 1),
      .table (s.tables.length + 2), .table (s.tables.length + 3)],
    tables := s.tables ++
      [LTable.mk (metatableFields INDEX_METATABLE s.tables.length) none,
       LTable.mk (metatableFields TU_METATABLE (s.tables.length + 1)) none,
       LTable.mk (metatableFields CURSOR_METATABLE (s.tables.length + 2)) none,
       LTable.mk moduleFields none],
    registry := rawset (rawset (rawset s.registry (.string INDEX_METATABLE) (.table s.tables.length))
      (.string TU_METATABLE) (.table (s.tables.length + 1)))
      (.string CURSOR_METATABLE) (.table (s.tables.length + 2)) }

/-- The name can be used by `new_metatable`: it is not registered, or it is bound to a table
without metatable. -/
def loadable (s : LState) (name : String) : Bool :=
  match rawget s.registry (.string name) with
  | .nil => true
  | .table t =>
    match s.tables[t]? with
    | some tb => tb.metatable.isNone
    | none => false
  | _ => false

/-- The state in which a computation ended, if it ended inside the model. -/
def Outcome.finalState {α : Type} : Outcome α → Option LState
  | .ok _ s => some s
  | .raise _ s => some s
  | .undefined => none

/-- A computation that never writes the registry. -/
def KeepsRegistry {α : Type} (m : M α) : Prop :=
  ∀ s s1, (m s).finalState = some s1 → s1.registry = s.registry

/-- What the host receives from the outcome of a C function. -/
def hostReturn (o : Outcome Nat) : Outcome (List LuaValue) :=
  match o with
  | .ok n s1 => .ok (s1.stack.drop (s1.stack.length - n)) s1
  | .raise e s1 => .raise e s1
  | .undefined => .undefined

/-- A sequence of calls from the host into the module.  A call that raises leaves its state
to the next call; a call that leaves the model ends the run. -/
def hostRun (env : Env) : List (CFunction × List LuaValue) → LState → Option LState
  | [], s => some s
  | (f, args) :: rest, s =>
    match (hostCall env f args s).finalState with
    | some s1 => hostRun env rest s1
    | none => none

/-- A computation that leaves the userdata heap alone and only appends to the log. -/
def Steady {α : Type} (m : M α) : Prop :=
  ∀ s s1, (m s).finalState = some s1 →
    s1.udata = s.udata ∧ ∃ ext, s1.trace = s.trace ++ ext

/-- A computation that leaves the first `r` userdata blocks alone and only appends to the
log, when it starts with at least `r` blocks. -/
def Grows (r : Nat) {α : Type} (m : M α) : Prop :=
  ∀ s s1, r ≤ s.udata.length → (m s).finalState = some s1 →
    r ≤ s1.udata.length ∧ (∀ i, i < r → s1.udata[i]? = s.udata[i]?) ∧
    ∃ ext, s1.trace = s.trace ++ ext

/-- A computation whose result, when it starts with at least `r` blocks, satisfies `Q`. -/
def Returns (r : Nat) {α : Type} (m : M α) (Q : α → Prop) : Prop :=
  ∀ s a s1, r ≤ s.udata.length → m s = .ok a s1 → Q a

/-! ## Sample inputs -/

/-- A Lua state in which nothing has been loaded. -/
def freshState : LState :=
  { stack := [], tables := [], udata := [], registry := [], lightMt := none, trace := [] }

/-- The null cursor of libclang (kind `CXCursor_InvalidFile`). -/
def nullCursor : CXCursor := { kind := 70, xdata := 0, data := (0, 0, 0) }

/-- A libclang that fails to parse `nonexistent.c` and has a null root cursor for the null
translation unit. -/
def sampleEnv : Env where
  createIndex := fun _ _ _ => 4096
  parseTranslationUnit := fun _ _ _ args _ _ =>
    if args = [some "nonexistent.c"] then 0 else 8192
  getTranslationUnitCursor := fun _ t =>
    if t = 0 then nullCursor else { kind := 300, xdata := 0, data := (0, 0, t) }
  Cursor_isNull := fun _ c => if c = nullCursor then 1 else 0
  getCursorSpelling := fun _ c => { data := c.data.2.2, private_flags := 1 }
  getCString := fun _ x => if x.data = 0 then some "" else some "main.c"
  tostringbuff := fun _ => "0"

/-- The fresh state after `luaopen_luaclang`. -/
def loadedState : LState :=
  { stack := [.table 0, .table 1, .table 2, .table 3],
    tables :=
      [LTable.mk [(.string "__name", .string "Clang.Index"), (.string "__index", .table 0)] none,
       LTable.mk [(.string "__name", .string "Clang.TU"), (.string "__index", .table 1)] none,
       LTable.mk [(.string "__name", .string "Clang.Cursor"), (.string "__index", .table 2)] none,
       LTable.mk moduleFields none],
    udata := [],
    registry := [(.string "Clang.Index", .table 0), (.string "Clang.TU", .table 1),
      (.string "Clang.Cursor", .table 2)],
    lightMt := none,
    trace := [] }

/-- The loaded state after `createIndex(false, false)`. -/
def indexState : LState :=
  { loadedState with
    stack := [.boolean false, .boolean false, .userdata 0],
    udata := [UData.mk (.index 4096) (some 0)],
    trace := [.createIndex 0 0] }

/-- The index state after `parseTU(index, "main.c")`. -/
def unitState : LState :=
  { indexState with
    stack := [.userdata 0, .string "main.c", .userdata 1],
    udata := [UData.mk (.index 4096) (some 0), UData.mk (.tu 8192) (some 1)],
    trace := [.createIndex 0 0, .parseTranslationUnit 4096 none [some "main.c"] 0 0] }

/-- The unit state after `getTUCursor(unit)`: one handle of each kind. -/
def sessionState : LState :=
  { loadedState with
    stack := [.userdata 1, .userdata 2],
    udata := [UData.mk (.index 4096) (some 0), UData.mk (.tu 8192) (some 1),
      UData.mk (.cursor { kind := 300, xdata := 0, data := (0, 0, 8192) }) (some 2)],
    trace := [.createIndex 0 0, .parseTranslationUnit 4096 none [some "main.c"] 0 0,
      .getTranslationUnitCursor 8192,
      .Cursor_isNull { kind := 300, xdata := 0, data := (0, 0, 8192) }] }

/-- The session state after `disposeIndex(index)`. -/
def disposedOnce : LState :=
  { sessionState with
    stack := [.userdata 0],
    trace := sessionState.trace ++ [.disposeIndex 4096] }

/-- The session state after a second `disposeIndex(index)`. -/
def disposedTwice : LState :=
  { sessionState with
    stack := [.userdata 0],
    trace := sessionState.trace ++ [.disposeIndex 4096, .disposeIndex 4096] }

/-- The state after `parseTU(index, "nonexistent.c")` on `indexState`. -/
def nullUnitState : LState :=
  { indexState with
    stack := [.userdata 0, .string "nonexistent.c", .userdata 1],
    udata := [UData.mk (.index 4096) (some 0), UData.mk (.tu 0) (some 1)],
    trace := [.createIndex 0 0, .parseTranslationUnit 4096 none [some "nonexistent.c"] 0 0] }

/-- The state after `parseTU(index, "main.c")` on the disposed index of `disposedOnce`. -/
def parsedAfterDispose : LState :=
  { disposedOnce with
    stack := [.userdata 0, .string "main.c", .userdata 3],
    udata := sessionState.udata ++ [UData.mk (.tu 8192) (some 1)],
    trace := disposedOnce.trace ++ [.parseTranslationUnit 4096 none [some "main.c"] 0 0] }

/-- The sample libclang, except that `clang_getCString` returns NULL. -/
def nullStringEnv : Env :=
  { sampleEnv with getCString := fun _ _ => none }

/-- The session state after `getCursorSpelling(cursor)` under `nullStringEnv`. -/
def nullSpellingState : LState :=
  { sessionState with
    stack := [.userdata 2, .nil],
    trace := sessionState.trace ++
      [.getCursorSpelling { kind := 300, xdata := 0, data := (0, 0, 8192) },
       .getCString { data := 8192, private_flags := 1 },
       .disposeString { data := 8192, private_flags := 1 }] }

/-- The state after `createIndex()` on `disposedOnce`: a later state of the session. -/
def laterState : LState :=
  { disposedOnce with
    stack := [.userdata 3],
    udata := sessionState.udata ++ [UData.mk (.index 4096) (some 0)],
    trace := disposedOnce.trace ++ [.createIndex 0 0] }

/-- The loaded state after `new_CXType`: the new block has no metatable. -/
def typeBoxState : LState :=
  { loadedState with
    stack := loadedState.stack ++ [.userdata 0],
    udata := [UData.mk .uninit none] }

/-! ## Stack and heap lemmas -/

@[simp] theorem bind_apply {α β : Type} (m : M α) (f : α → M β) (s : LState) :
    (m >>= f) s = match m s with
      | .ok a s1 => f a s1
      | .raise e s1 => .raise e s1
      | .undefined => .undefined := rfl

@[simp] theorem pure_apply {α : Type} (a : α) (s : LState) : (pure a : M α) s = .ok a s := rfl

theorem index2value_one (st : List LuaValue) : index2value st 1 = st.head? := by
  cases st <;> simp [index2value]

theorem index2value_two (st : List LuaValue) : index2value st 2 = st[1]? := by
  simp [index2value]

theorem index2value_neg_one (st : List LuaValue) (a : LuaValue) :
    index2value (st ++ [a]) (-1) = some a := by
  simp [index2value]

theorem index2value_neg_two (st : List LuaValue) (a b : LuaValue) :
    index2value (st ++ [a, b]) (-2) = some a := by
  simp [index2value, List.getElem_append_right]

theorem set_concat_length {α : Type} (l : List α) (u v : α) :
    (l ++ [u]).set l.length v = l ++ [v] := by
  induction l with
  | nil => rfl
  | cons x xs ih => simp [ih]

theorem drop_top_one (st : List LuaValue) (a : LuaValue) :
    (st ++ [a]).drop ((st ++ [a]).length - 1) = [a] := by
  simp

theorem drop_top_one_of_two (st : List LuaValue) (a b : LuaValue) :
    (st ++ [a, b]).drop ((st ++ [a, b]).length - 1) = [b] := by
  have : (st ++ [a, b]) = (st ++ [a]) ++ [b] := by simp
  rw [this]; simp

theorem new_CXIndex_tagged (s : LState) (m : Nat)
    (h : rawget s.registry (.string INDEX_METATABLE) = .table m) :
    new_CXIndex s = .ok (.box s.udata.length)
      { s with stack := s.stack ++ [.userdata s.udata.length],
               udata := s.udata ++ [{ payload := .uninit, metatable := some m }] } := by
  simp [new_CXIndex, lua_newuserdata, luaL_getmetatable, lua_getfield, push, lua_setmetatable, h,
    index2value_neg_two, set_concat_length]


theorem new_CXTU_tagged (s : LState) (m : Nat)
    (h : rawget s.registry (.string TU_METATABLE) = .table m) :
    new_CXTU s = .ok (.box s.udata.length)
      { s with stack := s.stack ++ [.userdata s.udata.length],
               udata := s.udata ++ [{ payload := .uninit, metatable := some m }] } := by
  simp [new_CXTU, lua_newuserdata, luaL_getmetatable, lua_getfield, push, lua_setmetatable, h,
    index2value_neg_two, set_concat_length]

theorem new_CXCursor_tagged (s : LState) (m : Nat)
    (h : rawget s.registry (.string CURSOR_METATABLE) = .table m) :
    new_CXCursor s = .ok (.box s.udata.length)
      { s with stack := s.stack ++ [.userdata s.udata.length],
               udata := s.udata ++ [{ payload := .uninit, metatable := some m }] } := by
  simp [new_CXCursor, lua_newuserdata, luaL_getmetatable, lua_getfield, push, lua_setmetatable, h,
    index2value_neg_two, set_concat_length]

theorem new_CXType_untagged (s : LState)
    (h : rawget s.registry (.string TYPE_METATABLE) = .nil) :
    new_CXType s = .ok (.box s.udata.length)
      { s with stack := s.stack ++ [.userdata s.udata.length],
               udata := s.udata ++ [{ payload := .uninit, metatable := none }] } := by
  simp [new_CXType, lua_newuserdata, luaL_getmetatable, lua_getfield, push, lua_setmetatable, h,
    index2value_neg_two, set_concat_length]

theorem checkudata_handle (s : LState) (idx : Int) (tname : String) (r m : Nat) (u : UData)
    (hv : index2value s.stack idx = some (.userdata r)) (hu : s.udata[r]? = some u)
    (hm : u.metatable = some m) (hreg : rawget s.registry (.string tname) = .table m) :
    luaL_checkudata idx tname s = .ok (.box r) s := by
  simp [luaL_checkudata, luaL_testudata, lua_touserdata, metatableOf, hv, hu, hm, hreg]

theorem checkudata_untagged (s : LState) (idx : Int) (tname : String)
    (h : hasTag s (index2value s.stack idx) tname = false) :
    luaL_checkudata idx tname s = .raise (.typeMismatch idx tname) s := by
  have key : luaL_testudata s idx tname = none := by
    cases ht : luaL_testudata s idx tname with
    | none => rfl
    | some p =>
      exfalso
      unfold luaL_testudata lua_touserdata metatableOf at ht
      unfold hasTag at h
      cases hv : index2value s.stack idx with
      | none => simp [hv] at ht
      | some v =>
        cases v with
        | userdata r =>
          cases hu : s.udata[r]? with
          | none => simp [hv, hu] at ht
          | some u =>
            cases hm : u.metatable with
            | none => simp [hv, hu, hm] at ht
            | some m =>
              simp [hv, hu, hm, userdataMetatable] at ht h
              exact h ht.1
        | lightuserdata p =>
          cases hm : s.lightMt with
          | none =>
            by_cases hp : p = 0 <;> simp [hv, hm, hp] at ht
          | some m =>
            by_cases hp : p = 0
            · simp [hv, hp] at ht
            · simp [hv, hm, hp, userdataMetatable] at ht h
              exact h ht.1
        | _ => simp [hv] at ht
  simp [luaL_checkudata, key]

theorem dispose_CXIndex_spec (s : LState) (r m : Nat) (v : CXIndex)
    (hv : index2value s.stack 1 = some (.userdata r))
    (hu : s.udata[r]? = some { payload := .index v, metatable := some m })
    (hreg : rawget s.registry (.string INDEX_METATABLE) = .table m) :
    dispose_CXIndex s = .ok 0 { s with trace := s.trace ++ [.disposeIndex v] } := by
  simp [dispose_CXIndex, to_CXIndex, checkudata_handle s 1 INDEX_METATABLE r m _ hv hu rfl hreg,
    loadIndex, load, hu, clang_disposeIndex, logCall]

theorem dispose_CXTU_spec (s : LState) (r m : Nat) (v : CXTranslationUnit)
    (hv : index2value s.stack 1 = some (.userdata r))
    (hu : s.udata[r]? = some { payload := .tu v, metatable := some m })
    (hreg : rawget s.registry (.string TU_METATABLE) = .table m) :
    dispose_CXTU s = .ok 0 { s with trace := s.trace ++ [.disposeTranslationUnit v] } := by
  simp [dispose_CXTU, to_CXTU, checkudata_handle s 1 TU_METATABLE r m _ hv hu rfl hreg,
    loadTU, load, hu, clang_disposeTranslationUnit, logCall]


theorem getElem?_concat_of_some {α : Type} (l : List α) (x a : α) (r : Nat)
    (h : l[r]? = some a) : (l ++ [x])[r]? = some a := by
  have hr : r < l.length := by
    by_contra hc
    rw [List.getElem?_eq_none (by omega)] at h
    exact Option.noConfusion h
  rw [List.getElem?_append_left hr]
  exact h

theorem parse_TU_spec (env : Env) (s : LState) (r m mt : Nat) (v : CXIndex) (file : String)
    (hv : index2value s.stack 1 = some (.userdata r))
    (hf : index2value s.stack 2 = some (.string file))
    (hu : s.udata[r]? = some { payload := .index v, metatable := some m })
    (hreg : rawget s.registry (.string INDEX_METATABLE) = .table m)
    (htu : rawget s.registry (.string TU_METATABLE) = .table mt) :
    parse_TU env s = .ok 1
      { s with stack := s.stack ++ [.userdata s.udata.length],
               udata := s.udata ++
                 [{ payload := .tu (env.parseTranslationUnit s.trace v none [some file] 0 0),
                    metatable := some mt }],
               trace := s.trace ++ [.parseTranslationUnit v none [some file] 0 0] } := by
  simp [parse_TU, to_CXIndex, checkudata_handle s 1 INDEX_METATABLE r m _ hv hu rfl hreg,
    lua_tostring, hf, new_CXTU_tagged s mt htu, loadIndex, load,
    getElem?_concat_of_some _ _ _ _ hu, clang_parseTranslationUnit, store,
    CXTranslationUnit_None, set_concat_length]

theorem lua_tostring_total (env : Env) (s : LState) (idx : Int) :
    ∃ fname st, lua_tostring env idx s =
      .ok fname (LState.mk st s.tables s.udata s.registry s.lightMt s.trace) := by
  unfold lua_tostring
  split
  · exact ⟨_, s.stack, rfl⟩
  · exact ⟨_, _, rfl⟩
  · exact ⟨_, s.stack, rfl⟩

theorem parse_TU_spec_any (env : Env) (s : LState) (r m mt : Nat) (v : CXIndex)
    (fname : Option String) (st : List LuaValue)
    (hv : index2value s.stack 1 = some (.userdata r))
    (hf : lua_tostring env 2 s =
      .ok fname (LState.mk st s.tables s.udata s.registry s.lightMt s.trace))
    (hu : s.udata[r]? = some { payload := .index v, metatable := some m })
    (hreg : rawget s.registry (.string INDEX_METATABLE) = .table m)
    (htu : rawget s.registry (.string TU_METATABLE) = .table mt) :
    parse_TU env s = .ok 1
      (LState.mk (st ++ [.userdata s.udata.length]) s.tables
        (s.udata ++ [UData.mk (.tu (env.parseTranslationUnit s.trace v none [fname] 0 0))
          (some mt)])
        s.registry s.lightMt (s.trace ++ [.parseTranslationUnit v none [fname] 0 0])) := by
  have hnew := new_CXTU_tagged (LState.mk st s.tables s.udata s.registry s.lightMt s.trace)
    mt htu
  simp only [] at hnew
  simp [parse_TU, to_CXIndex, checkudata_handle s 1 INDEX_METATABLE r m _ hv hu rfl hreg,
    hf, hnew, loadIndex, load,
    getElem?_concat_of_some _ _ _ _ hu, clang_parseTranslationUnit, store,
    CXTranslationUnit_None, set_concat_length]

theorem get_TU_cursor_spec (env : Env) (s : LState) (r m mc : Nat) (t : CXTranslationUnit)
    (hv : index2value s.stack 1 = some (.userdata r))
    (hu : s.udata[r]? = some { payload := .tu t, metatable := some m })
    (hreg : rawget s.registry (.string TU_METATABLE) = .table m)
    (hcur : rawget s.registry (.string CURSOR_METATABLE) = .table mc) :
    get_TU_cursor env s = .ok 1
      { s with stack := s.stack ++
                 (if env.Cursor_isNull (s.trace ++ [.getTranslationUnitCursor t])
                      (env.getTranslationUnitCursor s.trace t) ≠ 0
                  then [.userdata s.udata.length, .nil] else [.userdata s.udata.length]),
               udata := s.udata ++
                 [{ payload := .cursor (env.getTranslationUnitCursor s.trace t),
                    metatable := some mc }],
               trace := s.trace ++ [.getTranslationUnitCursor t,
                 .Cursor_isNull (env.getTranslationUnitCursor s.trace t)] } := by
  by_cases hn : env.Cursor_isNull (s.trace ++ [.getTranslationUnitCursor t])
      (env.getTranslationUnitCursor s.trace t) = 0
  · simp [get_TU_cursor, to_CXTU, checkudata_handle s 1 TU_METATABLE r m _ hv hu rfl hreg,
      new_CXCursor_tagged s mc hcur, loadTU, loadCursor, load,
      getElem?_concat_of_some _ _ _ _ hu, clang_getTranslationUnitCursor, store,
      clang_Cursor_isNull, set_concat_length, hn]
  · simp [get_TU_cursor, to_CXTU, checkudata_handle s 1 TU_METATABLE r m _ hv hu rfl hreg,
      new_CXCursor_tagged s mc hcur, loadTU, loadCursor, load,
      getElem?_concat_of_some _ _ _ _ hu, clang_getTranslationUnitCursor, store,
      clang_Cursor_isNull, set_concat_length, hn, lua_pushnil, push]

theorem cstring_live (p : Option CStr) (s : LState)
    (h : ∀ q, p = some q → s.trace.length ≤ q.since) :
    cstring p s = .ok (p.map (fun q => q.chars)) s := by
  cases p with
  | none => rfl
  | some q =>
    have hd : s.trace.drop q.since = [] := List.drop_eq_nil_of_le (h q rfl)
    simp [cstring, hd]

theorem cstring_released (q : CStr) (s : LState)
    (h : NativeCall.disposeString q.owner ∈ s.trace.drop q.since) :
    cstring (some q) s = .undefined := by
  simp [cstring, h]

theorem release_before_read_undefined (env : Env) (x : CXString) (str : String) (s : LState)
    (h : env.getCString s.trace x = some str) :
    (do
      let p ← clang_getCString env x
      clang_disposeString x
      lua_pushstring_from p : M Unit) s = .undefined := by
  simp [clang_getCString, h, clang_disposeString, logCall, lua_pushstring_from, cstring]

theorem get_cursor_spelling_spec (env : Env) (s : LState) (r m : Nat) (c : CXCursor)
    (hv : index2value s.stack 1 = some (.userdata r))
    (hu : s.udata[r]? = some { payload := .cursor c, metatable := some m })
    (hreg : rawget s.registry (.string CURSOR_METATABLE) = .table m) :
    get_cursor_spelling env s = .ok 1
      (LState.mk
        (s.stack ++ [match env.getCString (s.trace ++ [.getCursorSpelling c])
            (env.getCursorSpelling s.trace c) with
          | some str => .string str
          | none => .nil])
        s.tables s.udata s.registry s.lightMt
        (s.trace ++ [.getCursorSpelling c, .getCString (env.getCursorSpelling s.trace c),
          .disposeString (env.getCursorSpelling s.trace c)])) := by
  have hlive := cstring_live
    ((env.getCString (s.trace ++ [.getCursorSpelling c]) (env.getCursorSpelling s.trace c)).map
      (fun str => CStr.mk (env.getCursorSpelling s.trace c) (s.trace.length + 1 + 1) str))
    (LState.mk s.stack s.tables s.udata s.registry s.lightMt
      (s.trace ++ [.getCursorSpelling c, .getCString (env.getCursorSpelling s.trace c)]))
    (by
      intro q hq
      cases hg : env.getCString (s.trace ++ [.getCursorSpelling c])
          (env.getCursorSpelling s.trace c) with
      | none => simp [hg] at hq
      | some str =>
        simp only [hg, Option.map_some', Option.some.injEq] at hq
        subst hq
        simp)
  simp only [get_cursor_spelling, to_CXCursor, bind_apply, pure_apply,
    checkudata_handle s 1 CURSOR_METATABLE r m _ hv hu rfl hreg,
    loadCursor, load, hu, clang_getCursorSpelling, clang_getCString, List.length_append,
    List.length_singleton, List.append_assoc, List.singleton_append, lua_pushstring_from,
    hlive]
  cases env.getCString (s.trace ++ [.getCursorSpelling c]) (env.getCursorSpelling s.trace c) <;>
    simp [lua_pushstring, push, clang_disposeString, logCall]

theorem create_CXIndex_spec (env : Env) (s : LState) (m : Nat) (x y : Int)
    (hx : lua_toboolean 1 s = .ok x s) (hy : lua_toboolean 2 s = .ok y s)
    (hreg : rawget s.registry (.string INDEX_METATABLE) = .table m) :
    create_CXIndex env s = .ok 1
      { s with stack := s.stack ++ [.userdata s.udata.length],
               udata := s.udata ++
                 [{ payload := .index (env.createIndex s.trace x y), metatable := some m }],
               trace := s.trace ++ [.createIndex x y] } := by
  simp [create_CXIndex, hx, hy, new_CXIndex_tagged s m hreg, clang_createIndex, store,
    set_concat_length]


theorem lua_toboolean_spec (s : LState) (idx : Int) :
    lua_toboolean idx s =
      .ok (if index2value s.stack idx = none ∨ index2value s.stack idx = some .nil ∨
              index2value s.stack idx = some (.boolean false) then 0 else 1) s := by
  unfold lua_toboolean
  split <;> simp_all

theorem lookup_filter_self (fs : List (LuaValue × LuaValue)) (k : LuaValue) :
    (fs.filter (fun kv => kv.1 != k)).lookup k = none := by
  induction fs with
  | nil => rfl
  | cons e es ih =>
    obtain ⟨ek, ev⟩ := e
    by_cases he : ek = k
    · have hp : (ek != k) = false := by simp [he]
      simp only [List.filter_cons, hp]
      simpa using ih
    · have hp : (ek != k) = true := by simp [he]
      have hne : (k == ek) = false := by
        simp only [beq_eq_false_iff_ne, ne_eq]
        exact fun h => he h.symm
      simp only [List.filter_cons, hp, if_true, List.lookup_cons, hne]
      exact ih

theorem lookup_filter_other (fs : List (LuaValue × LuaValue)) (k k1 : LuaValue) (hk : k1 ≠ k) :
    (fs.filter (fun kv => kv.1 != k)).lookup k1 = fs.lookup k1 := by
  induction fs with
  | nil => rfl
  | cons e es ih =>
    obtain ⟨ek, ev⟩ := e
    by_cases he : ek = k
    · have hp : (ek != k) = false := by simp [he]
      have hne : (k1 == ek) = false := by
        simp only [beq_eq_false_iff_ne, ne_eq, he]
        exact hk
      simp only [List.filter_cons, hp, List.lookup_cons, hne]
      simpa using ih
    · have hp : (ek != k) = true := by simp [he]
      simp only [List.filter_cons, hp, if_true, List.lookup_cons, ih]

theorem rawget_rawset_self (fs : List (LuaValue × LuaValue)) (k v : LuaValue) :
    rawget (rawset fs k v) k = v := by
  unfold rawget rawset
  by_cases hv : v = .nil
  · simp [hv, lookup_filter_self]
  · simp [hv, List.lookup_append, lookup_filter_self]

theorem rawget_rawset_other (fs : List (LuaValue × LuaValue)) (k k1 v : LuaValue)
    (hk : k1 ≠ k) : rawget (rawset fs k v) k1 = rawget fs k1 := by
  unfold rawget rawset
  have hk1 : (k1 == k) = false := by simpa using hk
  by_cases hv : v = .nil
  · simp [hv, lookup_filter_other _ _ _ hk]
  · simp [hv, List.lookup_append, lookup_filter_other _ _ _ hk, List.lookup, hk1]

theorem new_metatable_fresh (s : LState) (name : String)
    (h : rawget s.registry (.string name) = .nil) :
    new_metatable name s = .ok ()
      { s with stack := s.stack ++ [.table s.tables.length],
               tables := s.tables ++
                 [{ fields := rawset (rawset [] (.string "__name") (.string name))
                      (.string "__index") (.table s.tables.length),
                    metatable := none }],
               registry := rawset s.registry (.string name) (.table s.tables.length) } := by
  simp [new_metatable, luaL_newmetatable, luaL_getmetatable, lua_getfield, push, h, lua_pop1,
    lua_newtable, lua_pushstring, lua_setfield, index2value_neg_two, index2value_neg_one,
    lua_pushvalue, set_concat_length, LUA_REGISTRYINDEX]


theorem luaL_setfuncs_spec (l : List (String × CFunction)) :
    ∀ (s : LState) (st : List LuaValue) (t : Nat) (tb : LTable),
      s.stack = st ++ [.table t] → s.tables[t]? = some tb → tb.metatable = none →
      luaL_setfuncs l s = .ok ()
        { s with tables := s.tables.set t { tb with fields := setfuncsFields l tb.fields } } := by
  induction l with
  | nil =>
    intro s st t tb _ htb _
    have : s.tables.set t tb = s.tables := by
      apply List.ext_getElem?
      intro i
      by_cases hi : i = t
      · subst hi
        rw [List.getElem?_set_self', htb]; rfl
      · rw [List.getElem?_set_ne (fun h => hi h.symm)]
    simp [luaL_setfuncs, setfuncsFields, this]
  | cons e es ih =>
    intro s st t tb hst htb hmt
    obtain ⟨name, f⟩ := e
    have hlt : t < s.tables.length := by
      by_contra hc
      rw [List.getElem?_eq_none (by omega)] at htb
      exact Option.noConfusion htb
    have step := ih
      (LState.mk s.stack
        (s.tables.set t (LTable.mk (rawset tb.fields (.string name) (.cfunction f)) tb.metatable))
        s.udata s.registry s.lightMt s.trace)
      st t (LTable.mk (rawset tb.fields (.string name) (.cfunction f)) tb.metatable) hst
      (by simp [List.getElem?_set_self hlt]) hmt
    simp only [luaL_setfuncs, bind_apply, lua_pushcfunction, push, lua_setfield, hst,
      List.append_assoc, List.singleton_append, index2value_neg_two, htb, hmt]
    simp [LUA_REGISTRYINDEX]
    rw [← hst]
    simp only [setfuncsFields, List.foldl_cons, hmt] at step ⊢
    rw [step]
    simp [List.set_set]

theorem moduleFields_eq :
    setfuncsFields cursor_functions (setfuncsFields tu_functions
      (setfuncsFields index_functions (setfuncsFields clang_function []))) = moduleFields := by
  decide

theorem getElem?_append_nth {α : Type} (l : List α) (r : List α) (i : Nat) :
    (l ++ r)[l.length + i]? = r[i]? := by
  rw [List.getElem?_append_right (by omega)]
  congr 1
  omega

theorem set_append_nth {α : Type} (l : List α) (r : List α) (i : Nat) (x : α) :
    (l ++ r).set (l.length + i) x = l ++ r.set i x := by
  rw [List.set_append_right _ _ (by omega)]
  congr 2
  omega

theorem luaopen_fresh (s : LState) (h : namesFree s = true) :
    luaopen_luaclang s = .ok 1 (afterOpen s) := by
  simp only [namesFree, Bool.and_eq_true, decide_eq_true_eq] at h
  obtain ⟨⟨hi, ht⟩, hc⟩ := h
  have hTI : LuaValue.string TU_METATABLE ≠ .string INDEX_METATABLE := by decide
  have hCI : LuaValue.string CURSOR_METATABLE ≠ .string INDEX_METATABLE := by decide
  have hCT : LuaValue.string CURSOR_METATABLE ≠ .string TU_METATABLE := by decide
  have e1 : new_metatable INDEX_METATABLE s = .ok ()
      (LState.mk (s.stack ++ [.table s.tables.length])
        (s.tables ++ [LTable.mk (metatableFields INDEX_METATABLE s.tables.length) none])
        s.udata (rawset s.registry (.string INDEX_METATABLE) (.table s.tables.length))
        s.lightMt s.trace) :=
    new_metatable_fresh s _ hi
  have e2 : new_metatable TU_METATABLE
      (LState.mk (s.stack ++ [.table s.tables.length])
        (s.tables ++ [LTable.mk (metatableFields INDEX_METATABLE s.tables.length) none])
        s.udata (rawset s.registry (.string INDEX_METATABLE) (.table s.tables.length))
        s.lightMt s.trace) = .ok ()
      (LState.mk (s.stack ++ [.table s.tables.length, .table (s.tables.length + 1)])
        (s.tables ++ [LTable.mk (metatableFields INDEX_METATABLE s.tables.length) none,
          LTable.mk (metatableFields TU_METATABLE (s.tables.length + 1)) none])
        s.udata (rawset (rawset s.registry (.string INDEX_METATABLE) (.table s.tables.length))
          (.string TU_METATABLE) (.table (s.tables.length + 1)))
        s.lightMt s.trace) := by
    have := new_metatable_fresh
      (LState.mk (s.stack ++ [.table s.tables.length])
        (s.tables ++ [LTable.mk (metatableFields INDEX_METATABLE s.tables.length) none])
        s.udata (rawset s.registry (.string INDEX_METATABLE) (.table s.tables.length))
        s.lightMt s.trace) TU_METATABLE
      (by simpa [rawget_rawset_other _ _ _ _ hTI] using ht)
    simpa [metatableFields] using this
  have e3 : new_metatable CURSOR_METATABLE
      (LState.mk (s.stack ++ [.table s.tables.length, .table (s.tables.length + 1)])
        (s.tables ++ [LTable.mk (metatableFields INDEX_METATABLE s.tables.length) none,
          LTable.mk (metatableFields TU_METATABLE (s.tables.length + 1)) none])
        s.udata (rawset (rawset s.registry (.string INDEX_METATABLE) (.table s.tables.length))
          (.string TU_METATABLE) (.table (s.tables.length + 1)))
        s.lightMt s.trace) = .ok ()
      (LState.mk (s.stack ++ [.table s.tables.length, .table (s.tables.length + 1),
          .table (s.tables.length + 2)])
        (s.tables ++ [LTable.mk (metatableFields INDEX_METATABLE s.tables.length) none,
          LTable.mk (metatableFields TU_METATABLE (s.tables.length + 1)) none,
          LTable.mk (metatableFields CURSOR_METATABLE (s.tables.length + 2)) none])
        s.udata (rawset (rawset (rawset s.registry (.string INDEX_METATABLE)
            (.table s.tables.length)) (.string TU_METATABLE) (.table (s.tables.length + 1)))
          (.string CURSOR_METATABLE) (.table (s.tables.length + 2)))
        s.lightMt s.trace) := by
    have := new_metatable_fresh
      (LState.mk (s.stack ++ [.table s.tables.length, .table (s.tables.length + 1)])
        (s.tables ++ [LTable.mk (metatableFields INDEX_METATABLE s.tables.length) none,
          LTable.mk (metatableFields TU_METATABLE (s.tables.length + 1)) none])
        s.udata (rawset (rawset s.registry (.string INDEX_METATABLE) (.table s.tables.length))
          (.string TU_METATABLE) (.table (s.tables.length + 1)))
        s.lightMt s.trace) CURSOR_METATABLE
      (by simpa [rawget_rawset_other _ _ _ _ hCT, rawget_rawset_other _ _ _ _ hCI] using hc)
    simpa [metatableFields] using this
  have e4 : ∀ fs : List (LuaValue × LuaValue), ∀ l : List (String × CFunction),
      luaL_setfuncs l
      (LState.mk (s.stack ++ [.table s.tables.length, .table (s.tables.length + 1),
          .table (s.tables.length + 2), .table (s.tables.length + 3)])
        (s.tables ++ [LTable.mk (metatableFields INDEX_METATABLE s.tables.length) none,
          LTable.mk (metatableFields TU_METATABLE (s.tables.length + 1)) none,
          LTable.mk (metatableFields CURSOR_METATABLE (s.tables.length + 2)) none,
          LTable.mk fs none])
        s.udata (rawset (rawset (rawset s.registry (.string INDEX_METATABLE)
            (.table s.tables.length)) (.string TU_METATABLE) (.table (s.tables.length + 1)))
          (.string CURSOR_METATABLE) (.table (s.tables.length + 2)))
        s.lightMt s.trace) = .ok ()
      (LState.mk (s.stack ++ [.table s.tables.length, .table (s.tables.length + 1),
          .table (s.tables.length + 2), .table (s.tables.length + 3)])
        (s.tables ++ [LTable.mk (metatableFields INDEX_METATABLE s.tables.length) none,
          LTable.mk (metatableFields TU_METATABLE (s.tables.length + 1)) none,
          LTable.mk (metatableFields CURSOR_METATABLE (s.tables.length + 2)) none,
          LTable.mk (setfuncsFields l fs) none])
        s.udata (rawset (rawset (rawset s.registry (.string INDEX_METATABLE)
            (.table s.tables.length)) (.string TU_METATABLE) (.table (s.tables.length + 1)))
          (.string CURSOR_METATABLE) (.table (s.tables.length + 2)))
        s.lightMt s.trace) := by
    intro fs l
    have := luaL_setfuncs_spec l
      (LState.mk (s.stack ++ [.table s.tables.length, .table (s.tables.length + 1),
          .table (s.tables.length + 2), .table (s.tables.length + 3)])
        (s.tables ++ [LTable.mk (metatableFields INDEX_METATABLE s.tables.length) none,
          LTable.mk (metatableFields TU_METATABLE (s.tables.length + 1)) none,
          LTable.mk (metatableFields CURSOR_METATABLE (s.tables.length + 2)) none,
          LTable.mk fs none])
        s.udata (rawset (rawset (rawset s.registry (.string INDEX_METATABLE)
            (.table s.tables.length)) (.string TU_METATABLE) (.table (s.tables.length + 1)))
          (.string CURSOR_METATABLE) (.table (s.tables.length + 2)))
        s.lightMt s.trace)
      (s.stack ++ [.table s.tables.length, .table (s.tables.length + 1),
          .table (s.tables.length + 2)]) (s.tables.length + 3) (LTable.mk fs none)
      (by simp) (by rw [getElem?_append_nth]; rfl) rfl
    rw [this]
    simp [set_append_nth]
  simp only [luaopen_luaclang, bind_apply, pure_apply, e1, e2, e3, lua_newtable]
  simp only [List.length_append, List.length_cons, List.length_nil, List.append_assoc,
    List.cons_append, List.nil_append, Nat.zero_add, Nat.add_assoc, Nat.reduceAdd, e4]
  rw [moduleFields_eq]
  rfl


theorem new_metatable_existing (s : LState) (name : String) (t : Nat) (tb : LTable)
    (hreg : rawget s.registry (.string name) = .table t) (htb : s.tables[t]? = some tb)
    (hmt : tb.metatable = none) :
    new_metatable name s = .ok ()
      (LState.mk (s.stack ++ [.table t])
        (s.tables.set t (LTable.mk (rawset tb.fields (.string "__index") (.table t)) none))
        s.udata s.registry s.lightMt s.trace) := by
  simp [new_metatable, luaL_newmetatable, luaL_getmetatable, lua_getfield, push, hreg,
    lua_setfield, index2value_neg_two, index2value_neg_one, lua_pushvalue, LUA_REGISTRYINDEX,
    htb, hmt]

theorem new_metatable_any (s : LState) (name : String) (h : loadable s name = true) :
    ∃ s1 v, new_metatable name s = .ok () s1 ∧ s1.stack = s.stack ++ [v] ∧
      s.tables.length ≤ s1.tables.length ∧
      (∀ other, loadable s other = true → loadable s1 other = true) := by
  unfold loadable at h
  cases hreg : rawget s.registry (.string name) with
  | nil =>
    refine ⟨_, _, new_metatable_fresh s name hreg, rfl, by simp, ?_⟩
    intro other ho
    by_cases hne : other = name
    · subst hne
      simp [loadable, rawget_rawset_self, metatableFields]
    · have hk : LuaValue.string other ≠ .string name := by simpa using hne
      unfold loadable at ho ⊢
      simp only [rawget_rawset_other _ _ _ _ hk]
      cases hro : rawget s.registry (.string other) <;> simp [hro] at ho ⊢
      rename_i t
      cases htb : s.tables[t]? with
      | none => simp [htb] at ho
      | some tb =>
        simp only [htb] at ho
        simp [getElem?_concat_of_some _ _ _ _ htb, ho]
  | table t =>
    simp only [hreg] at h
    cases htb : s.tables[t]? with
    | none => simp [htb] at h
    | some tb =>
      simp only [htb, Option.isNone_iff_eq_none] at h
      refine ⟨_, _, new_metatable_existing s name t tb hreg htb h, rfl, by simp, ?_⟩
      intro other ho
      unfold loadable at ho ⊢
      cases hro : rawget s.registry (.string other) <;> simp [hro] at ho ⊢
      rename_i t2
      cases htb2 : s.tables[t2]? with
      | none => simp [htb2] at ho
      | some tb2 =>
        simp only [htb2] at ho
        by_cases ht : t = t2
        · subst ht
          have hlt : t < s.tables.length := by
            by_contra hc
            rw [List.getElem?_eq_none (by omega)] at htb
            exact Option.noConfusion htb
          simp [List.getElem?_set_self hlt]
        · simp [List.getElem?_set_ne ht, htb2, ho]
  | _ => simp [hreg] at h


theorem luaL_setfuncs_top (l : List (String × CFunction)) (s : LState) (st : List LuaValue)
    (t : Nat) (fs : List (LuaValue × LuaValue))
    (hst : s.stack = st ++ [.table t]) (htb : s.tables[t]? = some (LTable.mk fs none)) :
    ∃ s1, luaL_setfuncs l s = .ok () s1 ∧ s1.stack = st ++ [.table t] ∧
      s1.tables[t]? = some (LTable.mk (setfuncsFields l fs) none) := by
  have hlt : t < s.tables.length := by
    by_contra hc
    rw [List.getElem?_eq_none (by omega)] at htb
    exact Option.noConfusion htb
  refine ⟨_, luaL_setfuncs_spec l s st t _ hst htb rfl, hst, ?_⟩
  simp [List.getElem?_set_self hlt]

/-! ## Handles and initialised states -/

theorem handlePayload_some (s : LState) (v : LuaValue) (tname : String) (p : Payload)
    (h : handlePayload s v tname = some p) :
    ∃ r m, v = .userdata r ∧ s.udata[r]? = some (UData.mk p (some m)) ∧
      rawget s.registry (.string tname) = .table m := by
  unfold handlePayload at h
  cases v with
  | userdata r =>
    cases hu : s.udata[r]? with
    | none => simp [hu] at h
    | some u =>
      obtain ⟨pl, mt⟩ := u
      cases mt with
      | none => simp [hu] at h
      | some m =>
        simp only [hu] at h
        split at h
        · rename_i hreg
          simp only [Option.some.injEq] at h
          subst h
          exact ⟨r, m, rfl, hu, hreg⟩
        · simp at h
  | _ => simp at h

theorem handlePayload_of (s : LState) (r m : Nat) (tname : String) (p : Payload)
    (hu : s.udata[r]? = some (UData.mk p (some m)))
    (hreg : rawget s.registry (.string tname) = .table m) :
    handlePayload s (.userdata r) tname = some p := by
  simp [handlePayload, hu, hreg]

theorem initialised_tags (s : LState) (h : initialised s = true) :
    ∃ mi mt mc, rawget s.registry (.string INDEX_METATABLE) = .table mi ∧
      rawget s.registry (.string TU_METATABLE) = .table mt ∧
      rawget s.registry (.string CURSOR_METATABLE) = .table mc ∧
      mi ≠ mt ∧ mi ≠ mc ∧ mt ≠ mc := by
  unfold initialised tagOf at h
  cases hi : rawget s.registry (.string INDEX_METATABLE) <;> simp [hi] at h
  cases ht : rawget s.registry (.string TU_METATABLE) <;> simp [ht] at h
  cases hc : rawget s.registry (.string CURSOR_METATABLE) <;> simp [hc] at h
  rename_i mi mt mc
  exact ⟨mi, mt, mc, rfl, rfl, rfl, h.1.1, h.1.2, h.2⟩

theorem luaopen_initialises (s : LState) (h : namesFree s = true) :
    luaopen_luaclang s = .ok 1 (afterOpen s) ∧ initialised (afterOpen s) = true := by
  refine ⟨luaopen_fresh s h, ?_⟩
  have hTI : LuaValue.string TU_METATABLE ≠ .string INDEX_METATABLE := by decide
  have hCI : LuaValue.string CURSOR_METATABLE ≠ .string INDEX_METATABLE := by decide
  have hCT : LuaValue.string CURSOR_METATABLE ≠ .string TU_METATABLE := by decide
  simp [initialised, tagOf, afterOpen, rawget_rawset_self, rawget_rawset_other _ _ _ _ hTI.symm,
    rawget_rawset_other _ _ _ _ hCI.symm, rawget_rawset_other _ _ _ _ hCT.symm]

/-! ## The operations as the host sees them -/

theorem hostCall_dispose_CXIndex (env : Env) (s : LState) (h : LuaValue) (rest : List LuaValue)
    (v : CXIndex) (hh : handlePayload s h INDEX_METATABLE = some (.index v)) :
    hostCall env .dispose_CXIndex (h :: rest) s =
      .ok [] { s with stack := h :: rest, trace := s.trace ++ [.disposeIndex v] } := by
  obtain ⟨r, m, rfl, hu, hreg⟩ := handlePayload_some s h _ _ hh
  have := dispose_CXIndex_spec { s with stack := .userdata r :: rest } r m v
    (by simp [index2value_one]) hu hreg
  simp [hostCall, CFunction.run, this]

theorem hostCall_dispose_CXTU (env : Env) (s : LState) (h : LuaValue) (rest : List LuaValue)
    (t : CXTranslationUnit) (hh : handlePayload s h TU_METATABLE = some (.tu t)) :
    hostCall env .dispose_CXTU (h :: rest) s =
      .ok [] { s with stack := h :: rest, trace := s.trace ++ [.disposeTranslationUnit t] } := by
  obtain ⟨r, m, rfl, hu, hreg⟩ := handlePayload_some s h _ _ hh
  have := dispose_CXTU_spec { s with stack := .userdata r :: rest } r m t
    (by simp [index2value_one]) hu hreg
  simp [hostCall, CFunction.run, this]

theorem hostCall_parse_TU (env : Env) (s : LState) (h : LuaValue) (file : String)
    (rest : List LuaValue) (v : CXIndex) (mt : Nat)
    (hh : handlePayload s h INDEX_METATABLE = some (.index v))
    (htu : rawget s.registry (.string TU_METATABLE) = .table mt) :
    hostCall env .parse_TU (h :: .string file :: rest) s =
      .ok [.userdata s.udata.length]
        { s with stack := h :: .string file :: rest ++ [.userdata s.udata.length],
                 udata := s.udata ++
                   [UData.mk (.tu (env.parseTranslationUnit s.trace v none [some file] 0 0))
                     (some mt)],
                 trace := s.trace ++ [.parseTranslationUnit v none [some file] 0 0] } := by
  obtain ⟨r, m, rfl, hu, hreg⟩ := handlePayload_some s h _ _ hh
  have := parse_TU_spec env { s with stack := .userdata r :: .string file :: rest } r m mt v file
    (by simp [index2value_one]) (by simp [index2value_two]) hu hreg htu
  simp only [hostCall, CFunction.run, this]
  congr 1
  exact drop_top_one (.userdata r :: .string file :: rest) _

theorem hostCall_parse_TU_any (env : Env) (s : LState) (h : LuaValue)
    (rest : List LuaValue) (v : CXIndex) (mt : Nat)
    (hh : handlePayload s h INDEX_METATABLE = some (.index v))
    (htu : rawget s.registry (.string TU_METATABLE) = .table mt) :
    ∃ fname st,
      lua_tostring env 2 (LState.mk (h :: rest) s.tables s.udata s.registry s.lightMt s.trace) =
        .ok fname (LState.mk st s.tables s.udata s.registry s.lightMt s.trace) ∧
      hostCall env .parse_TU (h :: rest) s =
      .ok [.userdata s.udata.length]
        (LState.mk (st ++ [.userdata s.udata.length]) s.tables
          (s.udata ++ [UData.mk (.tu (env.parseTranslationUnit s.trace v none [fname] 0 0))
            (some mt)])
          s.registry s.lightMt (s.trace ++ [.parseTranslationUnit v none [fname] 0 0])) := by
  obtain ⟨r, m, rfl, hu, hreg⟩ := handlePayload_some s h _ _ hh
  obtain ⟨fname, st, hf⟩ := lua_tostring_total env
    (LState.mk (.userdata r :: rest) s.tables s.udata s.registry s.lightMt s.trace) 2
  have := parse_TU_spec_any env
    (LState.mk (.userdata r :: rest) s.tables s.udata s.registry s.lightMt s.trace)
    r m mt v fname st (by simp [index2value_one]) hf hu hreg htu
  refine ⟨fname, st, hf, ?_⟩
  simp only [hostCall, CFunction.run, this]
  congr 1
  exact drop_top_one st _

theorem hostCall_get_TU_cursor (env : Env) (s : LState) (h : LuaValue) (rest : List LuaValue)
    (t : CXTranslationUnit) (mc : Nat)
    (hh : handlePayload s h TU_METATABLE = some (.tu t))
    (hcur : rawget s.registry (.string CURSOR_METATABLE) = .table mc) :
    hostCall env .get_TU_cursor (h :: rest) s =
      .ok [if env.Cursor_isNull (s.trace ++ [.getTranslationUnitCursor t])
               (env.getTranslationUnitCursor s.trace t) ≠ 0
           then .nil else .userdata s.udata.length]
        { s with stack := h :: rest ++
                   (if env.Cursor_isNull (s.trace ++ [.getTranslationUnitCursor t])
                        (env.getTranslationUnitCursor s.trace t) ≠ 0
                    then [.userdata s.udata.length, .nil] else [.userdata s.udata.length]),
                 udata := s.udata ++
                   [UData.mk (.cursor (env.getTranslationUnitCursor s.trace t)) (some mc)],
                 trace := s.trace ++ [.getTranslationUnitCursor t,
                   .Cursor_isNull (env.getTranslationUnitCursor s.trace t)] } := by
  obtain ⟨r, m, rfl, hu, hreg⟩ := handlePayload_some s h _ _ hh
  have := get_TU_cursor_spec env { s with stack := .userdata r :: rest } r m mc t
    (by simp [index2value_one]) hu hreg hcur
  simp only [hostCall, CFunction.run, this]
  congr 1
  by_cases hn : env.Cursor_isNull (s.trace ++ [.getTranslationUnitCursor t])
      (env.getTranslationUnitCursor s.trace t) = 0
  · simp only [hn, ne_eq, not_true_eq_false, if_false]
    exact drop_top_one (.userdata r :: rest) _
  · simp only [hn, ne_eq, not_false_eq_true, if_true]
    exact drop_top_one_of_two (.userdata r :: rest) _ _

theorem hostCall_get_cursor_spelling (env : Env) (s : LState) (h : LuaValue)
    (rest : List LuaValue) (c : CXCursor)
    (hh : handlePayload s h CURSOR_METATABLE = some (.cursor c)) :
    hostCall env .get_cursor_spelling (h :: rest) s =
      .ok [match env.getCString (s.trace ++ [.getCursorSpelling c])
              (env.getCursorSpelling s.trace c) with
           | some str => .string str
           | none => .nil]
        (LState.mk
          (h :: rest ++
            [match env.getCString (s.trace ++ [.getCursorSpelling c])
               (env.getCursorSpelling s.trace c) with
             | some str => .string str
             | none => .nil])
          s.tables s.udata s.registry s.lightMt
          (s.trace ++ [.getCursorSpelling c,
            .getCString (env.getCursorSpelling s.trace c),
            .disposeString (env.getCursorSpelling s.trace c)])) := by
  obtain ⟨r, m, rfl, hu, hreg⟩ := handlePayload_some s h _ _ hh
  have := get_cursor_spelling_spec env
    (LState.mk (.userdata r :: rest) s.tables s.udata s.registry s.lightMt s.trace) r m c
    (by simp [index2value_one]) hu hreg
  simp only [hostCall, CFunction.run, this]
  congr 1
  exact drop_top_one (.userdata r :: rest) _

theorem hostCall_create_CXIndex (env : Env) (s : LState) (args : List LuaValue) (m : Nat)
    (hreg : rawget s.registry (.string INDEX_METATABLE) = .table m) :
    hostCall env .create_CXIndex args s =
      .ok [.userdata s.udata.length]
        { s with stack := args ++ [.userdata s.udata.length],
                 udata := s.udata ++
                   [UData.mk (.index (env.createIndex s.trace
                     (if args[0]? = none ∨ args[0]? = some .nil ∨
                         args[0]? = some (.boolean false) then 0 else 1)
                     (if args[1]? = none ∨ args[1]? = some .nil ∨
                         args[1]? = some (.boolean false) then 0 else 1))) (some m)],
                 trace := s.trace ++ [.createIndex
                     (if args[0]? = none ∨ args[0]? = some .nil ∨
                         args[0]? = some (.boolean false) then 0 else 1)
                     (if args[1]? = none ∨ args[1]? = some .nil ∨
                         args[1]? = some (.boolean false) then 0 else 1)] } := by
  have hx := lua_toboolean_spec { s with stack := args } 1
  have hy := lua_toboolean_spec { s with stack := args } 2
  have h0 : index2value args 1 = args[0]? := by simp [index2value]
  have h1 : index2value args 2 = args[1]? := by simp [index2value]
  simp only [h0, h1] at hx hy
  have := create_CXIndex_spec env { s with stack := args } m _ _ hx hy hreg
  simp only [hostCall, CFunction.run, this]
  congr 1
  exact drop_top_one args _

/-! ## The registry is written by module initialisation only -/

theorem keeps_bind {α β : Type} (m : M α) (f : α → M β) (hm : KeepsRegistry m)
    (hf : ∀ a, KeepsRegistry (f a)) : KeepsRegistry (m >>= f) := by
  intro s s2 h
  simp only [bind_apply] at h
  cases hms : m s with
  | ok a s1 =>
    simp only [hms] at h
    rw [hf a s1 s2 h, hm s s1 (by simp [hms, Outcome.finalState])]
  | raise e s1 =>
    simp only [hms, Outcome.finalState, Option.some.injEq] at h
    subst h
    exact hm s s1 (by simp [hms, Outcome.finalState])
  | undefined => simp [hms, Outcome.finalState] at h

theorem keeps_pure {α : Type} (a : α) : KeepsRegistry (pure a : M α) := by
  intro s s1 h
  simp only [pure_apply, Outcome.finalState, Option.some.injEq] at h
  subst h; rfl

theorem keeps_lua_toboolean (idx : Int) : KeepsRegistry (lua_toboolean idx) := by
  intro s s1 h
  unfold lua_toboolean at h
  split at h <;> simp only [Outcome.finalState, Option.some.injEq] at h <;> subst h <;> rfl

theorem keeps_lua_newuserdata : KeepsRegistry lua_newuserdata := by
  intro s s1 h
  simp only [lua_newuserdata, Outcome.finalState, Option.some.injEq] at h
  subst h; rfl

theorem keeps_push (v : LuaValue) : KeepsRegistry (push v) := by
  intro s s1 h
  simp only [push, Outcome.finalState, Option.some.injEq] at h
  subst h; rfl

theorem keeps_luaL_getmetatable (tname : String) : KeepsRegistry (luaL_getmetatable tname) := by
  intro s s1 h
  simp only [luaL_getmetatable, lua_getfield, if_true, push, Outcome.finalState,
    Option.some.injEq] at h
  subst h; rfl

theorem keeps_lua_setmetatable (idx : Int) : KeepsRegistry (lua_setmetatable idx) := by
  intro s s1 h
  unfold lua_setmetatable at h
  repeat' split at h
  all_goals simp only [Outcome.finalState, Option.some.injEq, reduceCtorEq] at h
  all_goals subst h; rfl

theorem keeps_luaL_checkudata (idx : Int) (tname : String) :
    KeepsRegistry (luaL_checkudata idx tname) := by
  intro s s1 h
  unfold luaL_checkudata at h
  split at h <;> simp only [Outcome.finalState, Option.some.injEq] at h <;> subst h <;> rfl

theorem keeps_lua_tostring (env : Env) (idx : Int) : KeepsRegistry (lua_tostring env idx) := by
  intro s s1 h
  unfold lua_tostring at h
  split at h <;> simp only [Outcome.finalState, Option.some.injEq] at h <;> subst h <;> rfl

theorem keeps_store (p : Ptr) (v : Payload) : KeepsRegistry (store p v) := by
  intro s s1 h
  unfold store at h
  repeat' split at h
  all_goals simp only [Outcome.finalState, Option.some.injEq, reduceCtorEq] at h
  all_goals subst h; rfl

theorem keeps_load (p : Ptr) : KeepsRegistry (load p) := by
  intro s s1 h
  unfold load at h
  repeat' split at h
  all_goals simp only [Outcome.finalState, Option.some.injEq, reduceCtorEq] at h
  all_goals subst h; rfl

theorem keeps_loadIndex (p : Ptr) : KeepsRegistry (loadIndex p) := by
  intro s s1 h
  have hl := keeps_load p s
  unfold loadIndex at h
  split at h
  · rename_i v s2 heq
    simp only [Outcome.finalState, Option.some.injEq] at h
    subst h
    exact hl _ (by simp [heq, Outcome.finalState])
  · rename_i e s2 heq
    simp only [Outcome.finalState, Option.some.injEq] at h
    subst h
    exact hl _ (by simp [heq, Outcome.finalState])
  · simp [Outcome.finalState] at h

theorem keeps_loadTU (p : Ptr) : KeepsRegistry (loadTU p) := by
  intro s s1 h
  have hl := keeps_load p s
  unfold loadTU at h
  split at h
  · rename_i v s2 heq
    simp only [Outcome.finalState, Option.some.injEq] at h
    subst h
    exact hl _ (by simp [heq, Outcome.finalState])
  · rename_i e s2 heq
    simp only [Outcome.finalState, Option.some.injEq] at h
    subst h
    exact hl _ (by simp [heq, Outcome.finalState])
  · simp [Outcome.finalState] at h

theorem keeps_loadCursor (p : Ptr) : KeepsRegistry (loadCursor p) := by
  intro s s1 h
  have hl := keeps_load p s
  unfold loadCursor at h
  split at h
  · rename_i v s2 heq
    simp only [Outcome.finalState, Option.some.injEq] at h
    subst h
    exact hl _ (by simp [heq, Outcome.finalState])
  · rename_i e s2 heq
    simp only [Outcome.finalState, Option.some.injEq] at h
    subst h
    exact hl _ (by simp [heq, Outcome.finalState])
  · simp [Outcome.finalState] at h

theorem keeps_logCall (c : NativeCall) : KeepsRegistry (logCall c) := by
  intro s s1 h
  simp only [logCall, Outcome.finalState, Option.some.injEq] at h
  subst h; rfl

theorem keeps_clang_createIndex (env : Env) (a b : Int) :
    KeepsRegistry (clang_createIndex env a b) := by
  intro s s1 h
  simp only [clang_createIndex, Outcome.finalState, Option.some.injEq] at h
  subst h; rfl

theorem keeps_clang_parseTranslationUnit (env : Env) (i : CXIndex) (f : Option String)
    (args : List (Option String)) (n o : Nat) :
    KeepsRegistry (clang_parseTranslationUnit env i f args n o) := by
  intro s s1 h
  simp only [clang_parseTranslationUnit, Outcome.finalState, Option.some.injEq] at h
  subst h; rfl

theorem keeps_clang_getTranslationUnitCursor (env : Env) (t : CXTranslationUnit) :
    KeepsRegistry (clang_getTranslationUnitCursor env t) := by
  intro s s1 h
  simp only [clang_getTranslationUnitCursor, Outcome.finalState, Option.some.injEq] at h
  subst h; rfl

theorem keeps_clang_Cursor_isNull (env : Env) (c : CXCursor) :
    KeepsRegistry (clang_Cursor_isNull env c) := by
  intro s s1 h
  simp only [clang_Cursor_isNull, Outcome.finalState, Option.some.injEq] at h
  subst h; rfl

theorem keeps_clang_getCursorSpelling (env : Env) (c : CXCursor) :
    KeepsRegistry (clang_getCursorSpelling env c) := by
  intro s s1 h
  simp only [clang_getCursorSpelling, Outcome.finalState, Option.some.injEq] at h
  subst h; rfl

theorem keeps_clang_getCString (env : Env) (x : CXString) :
    KeepsRegistry (clang_getCString env x) := by
  intro s s1 h
  simp only [clang_getCString, Outcome.finalState, Option.some.injEq] at h
  subst h; rfl

theorem keeps_cstring (p : Option CStr) : KeepsRegistry (cstring p) := by
  intro s s1 h
  unfold cstring at h
  repeat' split at h
  all_goals simp only [Outcome.finalState, Option.some.injEq, reduceCtorEq] at h
  all_goals subst h; rfl

theorem keeps_lua_pushstring (str : Option String) : KeepsRegistry (lua_pushstring str) := by
  cases str <;> exact keeps_push _

theorem keeps_new_CXIndex : KeepsRegistry new_CXIndex :=
  keeps_bind _ _ keeps_lua_newuserdata fun _ =>
    keeps_bind _ _ (keeps_luaL_getmetatable _) fun _ =>
      keeps_bind _ _ (keeps_lua_setmetatable _) fun _ => keeps_pure _

theorem keeps_new_CXTU : KeepsRegistry new_CXTU :=
  keeps_bind _ _ keeps_lua_newuserdata fun _ =>
    keeps_bind _ _ (keeps_luaL_getmetatable _) fun _ =>
      keeps_bind _ _ (keeps_lua_setmetatable _) fun _ => keeps_pure _

theorem keeps_new_CXCursor : KeepsRegistry new_CXCursor :=
  keeps_bind _ _ keeps_lua_newuserdata fun _ =>
    keeps_bind _ _ (keeps_luaL_getmetatable _) fun _ =>
      keeps_bind _ _ (keeps_lua_setmetatable _) fun _ => keeps_pure _

theorem keeps_create_CXIndex (env : Env) : KeepsRegistry (create_CXIndex env) :=
  keeps_bind _ _ (keeps_lua_toboolean _) fun _ =>
    keeps_bind _ _ (keeps_lua_toboolean _) fun _ =>
      keeps_bind _ _ keeps_new_CXIndex fun _ =>
        keeps_bind _ _ (keeps_clang_createIndex _ _ _) fun _ =>
          keeps_bind _ _ (keeps_store _ _) fun _ => keeps_pure _

theorem keeps_dispose_CXIndex : KeepsRegistry dispose_CXIndex :=
  keeps_bind _ _ (keeps_luaL_checkudata _ _) fun _ =>
    keeps_bind _ _ (keeps_loadIndex _) fun _ =>
      keeps_bind _ _ (keeps_logCall _) fun _ => keeps_pure _

theorem keeps_parse_TU (env : Env) : KeepsRegistry (parse_TU env) :=
  keeps_bind _ _ (keeps_luaL_checkudata _ _) fun _ =>
    keeps_bind _ _ (keeps_lua_tostring _ _) fun _ =>
      keeps_bind _ _ keeps_new_CXTU fun _ =>
        keeps_bind _ _ (keeps_loadIndex _) fun _ =>
          keeps_bind _ _ (keeps_clang_parseTranslationUnit _ _ _ _ _ _) fun _ =>
            keeps_bind _ _ (keeps_store _ _) fun _ => keeps_pure _

theorem keeps_dispose_CXTU : KeepsRegistry dispose_CXTU :=
  keeps_bind _ _ (keeps_luaL_checkudata _ _) fun _ =>
    keeps_bind _ _ (keeps_loadTU _) fun _ =>
      keeps_bind _ _ (keeps_logCall _) fun _ => keeps_pure _

theorem keeps_get_TU_cursor (env : Env) : KeepsRegistry (get_TU_cursor env) :=
  keeps_bind _ _ (keeps_luaL_checkudata _ _) fun _ =>
    keeps_bind _ _ keeps_new_CXCursor fun _ =>
      keeps_bind _ _ (keeps_loadTU _) fun _ =>
        keeps_bind _ _ (keeps_clang_getTranslationUnitCursor _ _) fun _ =>
          keeps_bind _ _ (keeps_store _ _) fun _ =>
            keeps_bind _ _ (keeps_loadCursor _) fun _ =>
              keeps_bind _ _ (keeps_clang_Cursor_isNull _ _) fun isNull => by
                by_cases h : isNull = 0
                · simp only [h, ne_eq, not_true_eq_false, if_false]
                  exact keeps_bind _ _ (keeps_pure _) fun _ => keeps_pure _
                · simp only [h, ne_eq, not_false_eq_true, if_true]
                  exact keeps_bind _ _ (keeps_push _) fun _ => keeps_pure _

theorem keeps_get_cursor_spelling (env : Env) : KeepsRegistry (get_cursor_spelling env) :=
  keeps_bind _ _ (keeps_luaL_checkudata _ _) fun _ =>
    keeps_bind _ _ (keeps_loadCursor _) fun _ =>
      keeps_bind _ _ (keeps_clang_getCursorSpelling _ _) fun _ =>
        keeps_bind _ _ (keeps_clang_getCString _ _) fun _ =>
          keeps_bind _ _ (keeps_bind _ _ (keeps_cstring _) fun _ => keeps_lua_pushstring _)
            fun _ => keeps_bind _ _ (keeps_logCall _) fun _ => keeps_pure _

theorem hostCall_keeps_registry (env : Env) (f : CFunction) (args : List LuaValue)
    (s s1 : LState) (h : (hostCall env f args s).finalState = some s1) :
    s1.registry = s.registry := by
  have key : KeepsRegistry (f.run env) := by
    cases f
    · exact keeps_create_CXIndex env
    · exact keeps_dispose_CXIndex
    · exact keeps_parse_TU env
    · exact keeps_dispose_CXTU
    · exact keeps_get_TU_cursor env
    · exact keeps_get_cursor_spelling env
    · intro s s1 h
      simp [CFunction.run, Outcome.finalState] at h
  have hk := key (LState.mk args s.tables s.udata s.registry s.lightMt s.trace) s1
  unfold hostCall at h
  cases hr : f.run env (LState.mk args s.tables s.udata s.registry s.lightMt s.trace) with
  | ok n s2 =>
    simp only [hr, Outcome.finalState, Option.some.injEq] at h hk
    subst h
    exact hk rfl
  | raise e s2 =>
    simp only [hr, Outcome.finalState, Option.some.injEq] at h hk
    subst h
    exact hk rfl
  | undefined => simp [hr, Outcome.finalState] at h

theorem hostCall_keeps_initialised (env : Env) (f : CFunction) (args : List LuaValue)
    (s s1 : LState) (hinit : initialised s = true)
    (h : (hostCall env f args s).finalState = some s1) : initialised s1 = true := by
  have hr := hostCall_keeps_registry env f args s s1 h
  simpa [initialised, tagOf, hr] using hinit

theorem luaopen_fresh_loaded : luaopen_luaclang freshState = .ok 1 loadedState := by
  rw [luaopen_fresh freshState (by decide)]
  decide

theorem sample_session_reached :
    hostCall sampleEnv .create_CXIndex [.boolean false, .boolean false] loadedState =
      .ok [.userdata 0] indexState ∧
    hostCall sampleEnv .parse_TU [.userdata 0, .string "main.c"] indexState =
      .ok [.userdata 1] unitState ∧
    hostCall sampleEnv .get_TU_cursor [.userdata 1] unitState =
      .ok [.userdata 2] sessionState := by
  refine ⟨?_, ?_, ?_⟩
  · rw [hostCall_create_CXIndex sampleEnv loadedState _ 0 (by decide)]
    decide
  · rw [hostCall_parse_TU sampleEnv indexState (.userdata 0) "main.c" [] 4096 1
      (by decide) (by decide)]
    decide
  · rw [hostCall_get_TU_cursor sampleEnv unitState (.userdata 1) [] 8192 2
      (by decide) (by decide)]
    decide

theorem sample_null_cursor :
    ∃ s1, hostCall sampleEnv .get_TU_cursor [.userdata 1] nullUnitState = .ok [.nil] s1 := by
  rw [hostCall_get_TU_cursor sampleEnv nullUnitState (.userdata 1) [] 0 2
    (by decide) (by decide)]
  exact ⟨_, rfl⟩

/-! ## Handles persist: old blocks are never written and the log only grows -/

theorem hostCall_eq_hostReturn (env : Env) (f : CFunction) (args : List LuaValue) (s : LState) :
    hostCall env f args s =
      hostReturn (f.run env (LState.mk args s.tables s.udata s.registry s.lightMt s.trace)) :=
  rfl

/-! ## Reaching a native call: the part of an operation that precedes it -/

theorem dispose_CXIndex_reaches (s : LState) (r m : Nat) (v : CXIndex)
    (hv : index2value s.stack 1 = some (.userdata r))
    (hu : s.udata[r]? = some { payload := .index v, metatable := some m })
    (hreg : rawget s.registry (.string INDEX_METATABLE) = .table m) :
    dispose_CXIndex s = (clang_disposeIndex v >>= fun _ => pure 0) s := by
  simp only [dispose_CXIndex, to_CXIndex, bind_apply,
    checkudata_handle s 1 INDEX_METATABLE r m _ hv hu rfl hreg, loadIndex, load, hu]

theorem parse_TU_reaches (env : Env) (s : LState) (r m mt : Nat) (v : CXIndex)
    (fname : Option String) (st : List LuaValue)
    (hv : index2value s.stack 1 = some (.userdata r))
    (hf : lua_tostring env 2 s =
      .ok fname (LState.mk st s.tables s.udata s.registry s.lightMt s.trace))
    (hu : s.udata[r]? = some { payload := .index v, metatable := some m })
    (hreg : rawget s.registry (.string INDEX_METATABLE) = .table m)
    (htu : rawget s.registry (.string TU_METATABLE) = .table mt) :
    parse_TU env s =
      (do
        let x ← clang_parseTranslationUnit env v none [fname] 0 CXTranslationUnit_None
        store (.box s.udata.length) (.tu x)
        return 1 : M Nat)
      (LState.mk (st ++ [.userdata s.udata.length]) s.tables
        (s.udata ++ [UData.mk .uninit (some mt)]) s.registry s.lightMt s.trace) := by
  have hnew := new_CXTU_tagged (LState.mk st s.tables s.udata s.registry s.lightMt s.trace)
    mt htu
  simp only [] at hnew
  simp only [parse_TU, to_CXIndex, bind_apply,
    checkudata_handle s 1 INDEX_METATABLE r m _ hv hu rfl hreg,
    hf, hnew, loadIndex, load, getElem?_concat_of_some _ _ _ _ hu]

theorem get_TU_cursor_reaches (env : Env) (s : LState) (r m mc : Nat) (t : CXTranslationUnit)
    (hv : index2value s.stack 1 = some (.userdata r))
    (hu : s.udata[r]? = some { payload := .tu t, metatable := some m })
    (hreg : rawget s.registry (.string TU_METATABLE) = .table m)
    (hcur : rawget s.registry (.string CURSOR_METATABLE) = .table mc) :
    get_TU_cursor env s =
      (do
        let c ← clang_getTranslationUnitCursor env t
        store (.box s.udata.length) (.cursor c)
        let c1 ← loadCursor (.box s.udata.length)
        let isNull ← clang_Cursor_isNull env c1
        if isNull ≠ 0 then
          lua_pushnil
        return 1 : M Nat)
      (LState.mk (s.stack ++ [.userdata s.udata.length]) s.tables
        (s.udata ++ [UData.mk .uninit (some mc)]) s.registry s.lightMt s.trace) := by
  simp only [get_TU_cursor, to_CXTU, bind_apply,
    checkudata_handle s 1 TU_METATABLE r m _ hv hu rfl hreg,
    new_CXCursor_tagged s mc hcur, loadTU, load, getElem?_concat_of_some _ _ _ _ hu]

theorem dispose_CXTU_reaches (s : LState) (r m : Nat) (t : CXTranslationUnit)
    (hv : index2value s.stack 1 = some (.userdata r))
    (hu : s.udata[r]? = some { payload := .tu t, metatable := some m })
    (hreg : rawget s.registry (.string TU_METATABLE) = .table m) :
    dispose_CXTU s = (clang_disposeTranslationUnit t >>= fun _ => pure 0) s := by
  simp only [dispose_CXTU, to_CXTU, bind_apply,
    checkudata_handle s 1 TU_METATABLE r m _ hv hu rfl hreg, loadTU, load, hu]

theorem hostCall_dispose_CXIndex_reaches (env : Env) (s : LState) (h : LuaValue)
    (rest : List LuaValue) (v : CXIndex)
    (hh : handlePayload s h INDEX_METATABLE = some (.index v)) :
    hostCall env .dispose_CXIndex (h :: rest) s =
      hostReturn ((clang_disposeIndex v >>= fun _ => pure 0)
        (LState.mk (h :: rest) s.tables s.udata s.registry s.lightMt s.trace)) := by
  obtain ⟨r, m, rfl, hu, hreg⟩ := handlePayload_some s h _ _ hh
  rw [hostCall_eq_hostReturn]
  simp only [CFunction.run]
  rw [dispose_CXIndex_reaches
    (LState.mk (.userdata r :: rest) s.tables s.udata s.registry s.lightMt s.trace)
    r m v (by simp [index2value_one]) hu hreg]

theorem hostCall_dispose_CXTU_reaches (env : Env) (s : LState) (h : LuaValue)
    (rest : List LuaValue) (t : CXTranslationUnit)
    (hh : handlePayload s h TU_METATABLE = some (.tu t)) :
    hostCall env .dispose_CXTU (h :: rest) s =
      hostReturn ((clang_disposeTranslationUnit t >>= fun _ => pure 0)
        (LState.mk (h :: rest) s.tables s.udata s.registry s.lightMt s.trace)) := by
  obtain ⟨r, m, rfl, hu, hreg⟩ := handlePayload_some s h _ _ hh
  rw [hostCall_eq_hostReturn]
  simp only [CFunction.run]
  rw [dispose_CXTU_reaches
    (LState.mk (.userdata r :: rest) s.tables s.udata s.registry s.lightMt s.trace)
    r m t (by simp [index2value_one]) hu hreg]

theorem hostCall_parse_TU_reaches (env : Env) (s : LState) (h : LuaValue)
    (rest : List LuaValue) (v : CXIndex) (mt : Nat) (fname : Option String)
    (st : List LuaValue)
    (hh : handlePayload s h INDEX_METATABLE = some (.index v))
    (htu : rawget s.registry (.string TU_METATABLE) = .table mt)
    (hf : lua_tostring env 2
        (LState.mk (h :: rest) s.tables s.udata s.registry s.lightMt s.trace) =
      .ok fname (LState.mk st s.tables s.udata s.registry s.lightMt s.trace)) :
    hostCall env .parse_TU (h :: rest) s =
      hostReturn
        ((do
            let x ← clang_parseTranslationUnit env v none [fname] 0 CXTranslationUnit_None
            store (.box s.udata.length) (.tu x)
            return 1 : M Nat)
          (LState.mk (st ++ [.userdata s.udata.length]) s.tables
            (s.udata ++ [UData.mk .uninit (some mt)]) s.registry s.lightMt s.trace)) := by
  obtain ⟨r, m, rfl, hu, hreg⟩ := handlePayload_some s h _ _ hh
  rw [hostCall_eq_hostReturn]
  simp only [CFunction.run]
  rw [parse_TU_reaches env
    (LState.mk (.userdata r :: rest) s.tables s.udata s.registry s.lightMt s.trace)
    r m mt v fname st (by simp [index2value_one]) hf hu hreg htu]

theorem hostCall_get_TU_cursor_reaches (env : Env) (s : LState) (h : LuaValue)
    (rest : List LuaValue) (t : CXTranslationUnit) (mc : Nat)
    (hh : handlePayload s h TU_METATABLE = some (.tu t))
    (hcur : rawget s.registry (.string CURSOR_METATABLE) = .table mc) :
    hostCall env .get_TU_cursor (h :: rest) s =
      hostReturn
        ((do
            let c ← clang_getTranslationUnitCursor env t
            store (.box s.udata.length) (.cursor c)
            let c1 ← loadCursor (.box s.udata.length)
            let isNull ← clang_Cursor_isNull env c1
            if isNull ≠ 0 then
              lua_pushnil
            return 1 : M Nat)
          (LState.mk (h :: rest ++ [.userdata s.udata.length]) s.tables
            (s.udata ++ [UData.mk .uninit (some mc)]) s.registry s.lightMt s.trace)) := by
  obtain ⟨r, m, rfl, hu, hreg⟩ := handlePayload_some s h _ _ hh
  rw [hostCall_eq_hostReturn]
  simp only [CFunction.run]
  rw [get_TU_cursor_reaches env
    (LState.mk (.userdata r :: rest) s.tables s.udata s.registry s.lightMt s.trace)
    r m mc t (by simp [index2value_one]) hu hreg hcur]

theorem grows_of_steady {α : Type} (r : Nat) (m : M α) (h : Steady m) : Grows r m := by
  intro s s1 hr hf
  obtain ⟨hu, ext, ht⟩ := h s s1 hf
  exact ⟨by rw [hu]; exact hr, fun i _ => by rw [hu], ext, ht⟩

theorem grows_bind_res {α β : Type} (r : Nat) (m : M α) (f : α → M β) (Q : α → Prop)
    (hm : Grows r m) (hq : Returns r m Q) (hf : ∀ a, Q a → Grows r (f a)) :
    Grows r (m >>= f) := by
  intro s s2 hr h
  simp only [bind_apply] at h
  cases hms : m s with
  | ok a s1 =>
    simp only [hms] at h
    obtain ⟨h1, h2, e1, h3⟩ := hm s s1 hr (by simp [hms, Outcome.finalState])
    obtain ⟨k1, k2, e2, k3⟩ := hf a (hq s a s1 hr hms) s1 s2 h1 h
    refine ⟨k1, fun i hi => by rw [k2 i hi, h2 i hi], e1 ++ e2, ?_⟩
    rw [k3, h3, List.append_assoc]
  | raise e s1 =>
    simp only [hms, Outcome.finalState, Option.some.injEq] at h
    subst h
    exact hm s s1 hr (by simp [hms, Outcome.finalState])
  | undefined => simp [hms, Outcome.finalState] at h

theorem grows_bind {α β : Type} (r : Nat) (m : M α) (f : α → M β)
    (hm : Grows r m) (hf : ∀ a, Grows r (f a)) : Grows r (m >>= f) :=
  grows_bind_res r m f (fun _ => True) hm (fun _ _ _ _ _ => trivial) (fun a _ => hf a)

theorem steady_pure {α : Type} (a : α) : Steady (pure a : M α) := by
  intro s s1 h
  simp only [pure_apply, Outcome.finalState, Option.some.injEq] at h
  subst h
  exact ⟨rfl, [], (List.append_nil _).symm⟩

theorem steady_lua_toboolean (idx : Int) : Steady (lua_toboolean idx) := by
  intro s s1 h
  unfold lua_toboolean at h
  split at h <;> simp only [Outcome.finalState, Option.some.injEq] at h <;> subst h <;>
    exact ⟨rfl, [], (List.append_nil _).symm⟩

theorem steady_push (v : LuaValue) : Steady (push v) := by
  intro s s1 h
  simp only [push, Outcome.finalState, Option.some.injEq] at h
  subst h
  exact ⟨rfl, [], (List.append_nil _).symm⟩

theorem steady_lua_pushstring (str : Option String) : Steady (lua_pushstring str) := by
  cases str <;> exact steady_push _

theorem steady_luaL_checkudata (idx : Int) (tname : String) :
    Steady (luaL_checkudata idx tname) := by
  intro s s1 h
  unfold luaL_checkudata at h
  split at h <;> simp only [Outcome.finalState, Option.some.injEq] at h <;> subst h <;>
    exact ⟨rfl, [], (List.append_nil _).symm⟩

theorem steady_lua_tostring (env : Env) (idx : Int) : Steady (lua_tostring env idx) := by
  intro s s1 h
  unfold lua_tostring at h
  split at h <;> simp only [Outcome.finalState, Option.some.injEq] at h <;> subst h <;>
    exact ⟨rfl, [], (List.append_nil _).symm⟩

theorem steady_load (p : Ptr) : Steady (load p) := by
  intro s s1 h
  unfold load at h
  repeat' split at h
  all_goals simp only [Outcome.finalState, Option.some.injEq, reduceCtorEq] at h
  all_goals subst h; exact ⟨rfl, [], (List.append_nil _).symm⟩

theorem steady_loadIndex (p : Ptr) : Steady (loadIndex p) := by
  intro s s1 h
  have hl := steady_load p s
  unfold loadIndex at h
  split at h
  · rename_i v s2 heq
    simp only [Outcome.finalState, Option.some.injEq] at h
    subst h
    exact hl _ (by simp [heq, Outcome.finalState])
  · rename_i e s2 heq
    simp only [Outcome.finalState, Option.some.injEq] at h
    subst h
    exact hl _ (by simp [heq, Outcome.finalState])
  · simp [Outcome.finalState] at h

theorem steady_loadTU (p : Ptr) : Steady (loadTU p) := by
  intro s s1 h
  have hl := steady_load p s
  unfold loadTU at h
  split at h
  · rename_i v s2 heq
    simp only [Outcome.finalState, Option.some.injEq] at h
    subst h
    exact hl _ (by simp [heq, Outcome.finalState])
  · rename_i e s2 heq
    simp only [Outcome.finalState, Option.some.injEq] at h
    subst h
    exact hl _ (by simp [heq, Outcome.finalState])
  · simp [Outcome.finalState] at h

theorem steady_loadCursor (p : Ptr) : Steady (loadCursor p) := by
  intro s s1 h
  have hl := steady_load p s
  unfold loadCursor at h
  split at h
  · rename_i v s2 heq
    simp only [Outcome.finalState, Option.some.injEq] at h
    subst h
    exact hl _ (by simp [heq, Outcome.finalState])
  · rename_i e s2 heq
    simp only [Outcome.finalState, Option.some.injEq] at h
    subst h
    exact hl _ (by simp [heq, Outcome.finalState])
  · simp [Outcome.finalState] at h

theorem steady_logCall (c : NativeCall) : Steady (logCall c) := by
  intro s s1 h
  simp only [logCall, Outcome.finalState, Option.some.injEq] at h
  subst h
  exact ⟨rfl, [c], rfl⟩

theorem steady_clang_createIndex (env : Env) (a b : Int) :
    Steady (clang_createIndex env a b) := by
  intro s s1 h
  simp only [clang_createIndex, Outcome.finalState, Option.some.injEq] at h
  subst h
  exact ⟨rfl, _, rfl⟩

theorem steady_clang_parseTranslationUnit (env : Env) (i : CXIndex) (f : Option String)
    (args : List (Option String)) (n o : Nat) :
    Steady (clang_parseTranslationUnit env i f args n o) := by
  intro s s1 h
  simp only [clang_parseTranslationUnit, Outcome.finalState, Option.some.injEq] at h
  subst h
  exact ⟨rfl, _, rfl⟩

theorem steady_clang_getTranslationUnitCursor (env : Env) (t : CXTranslationUnit) :
    Steady (clang_getTranslationUnitCursor env t) := by
  intro s s1 h
  simp only [clang_getTranslationUnitCursor, Outcome.finalState, Option.some.injEq] at h
  subst h
  exact ⟨rfl, _, rfl⟩

theorem steady_clang_Cursor_isNull (env : Env) (c : CXCursor) :
    Steady (clang_Cursor_isNull env c) := by
  intro s s1 h
  simp only [clang_Cursor_isNull, Outcome.finalState, Option.some.injEq] at h
  subst h
  exact ⟨rfl, _, rfl⟩

theorem steady_clang_getCursorSpelling (env : Env) (c : CXCursor) :
    Steady (clang_getCursorSpelling env c) := by
  intro s s1 h
  simp only [clang_getCursorSpelling, Outcome.finalState, Option.some.injEq] at h
  subst h
  exact ⟨rfl, _, rfl⟩

theorem steady_clang_getCString (env : Env) (x : CXString) :
    Steady (clang_getCString env x) := by
  intro s s1 h
  simp only [clang_getCString, Outcome.finalState, Option.some.injEq] at h
  subst h
  exact ⟨rfl, _, rfl⟩

theorem steady_cstring (p : Option CStr) : Steady (cstring p) := by
  intro s s1 h
  unfold cstring at h
  repeat' split at h
  all_goals simp only [Outcome.finalState, Option.some.injEq, reduceCtorEq] at h
  all_goals subst h; exact ⟨rfl, [], (List.append_nil _).symm⟩

theorem grows_store (r n : Nat) (v : Payload) (hn : r ≤ n) : Grows r (store (.box n) v) := by
  intro s s1 hr h
  unfold store at h
  simp only [] at h
  split at h
  · simp only [Outcome.finalState, Option.some.injEq] at h
    subst h
    refine ⟨by simpa using hr, fun i hi => ?_, [], (List.append_nil _).symm⟩
    exact List.getElem?_set_ne (by omega)
  · simp [Outcome.finalState] at h

theorem new_CXIndex_cases (s : LState) :
    (∃ mt, new_CXIndex s = .ok (.box s.udata.length)
      (LState.mk (s.stack ++ [.userdata s.udata.length]) s.tables
        (s.udata ++ [UData.mk .uninit mt]) s.registry s.lightMt s.trace)) ∨
    new_CXIndex s = .undefined := by
  cases hreg : rawget s.registry (.string INDEX_METATABLE) <;>
    simp [new_CXIndex, lua_newuserdata, luaL_getmetatable, lua_getfield, push,
      lua_setmetatable, hreg, index2value_neg_two, set_concat_length]

theorem new_CXTU_cases (s : LState) :
    (∃ mt, new_CXTU s = .ok (.box s.udata.length)
      (LState.mk (s.stack ++ [.userdata s.udata.length]) s.tables
        (s.udata ++ [UData.mk .uninit mt]) s.registry s.lightMt s.trace)) ∨
    new_CXTU s = .undefined := by
  cases hreg : rawget s.registry (.string TU_METATABLE) <;>
    simp [new_CXTU, lua_newuserdata, luaL_getmetatable, lua_getfield, push,
      lua_setmetatable, hreg, index2value_neg_two, set_concat_length]

theorem new_CXCursor_cases (s : LState) :
    (∃ mt, new_CXCursor s = .ok (.box s.udata.length)
      (LState.mk (s.stack ++ [.userdata s.udata.length]) s.tables
        (s.udata ++ [UData.mk .uninit mt]) s.registry s.lightMt s.trace)) ∨
    new_CXCursor s = .undefined := by
  cases hreg : rawget s.registry (.string CURSOR_METATABLE) <;>
    simp [new_CXCursor, lua_newuserdata, luaL_getmetatable, lua_getfield, push,
      lua_setmetatable, hreg, index2value_neg_two, set_concat_length]

theorem grows_of_cases (r : Nat) (m : M Ptr)
    (hc : ∀ s, (∃ mt, m s = .ok (.box s.udata.length)
      (LState.mk (s.stack ++ [.userdata s.udata.length]) s.tables
        (s.udata ++ [UData.mk .uninit mt]) s.registry s.lightMt s.trace)) ∨
      m s = .undefined) :
    Grows r m ∧ Returns r m (fun p => ∃ n, p = .box n ∧ r ≤ n) := by
  constructor
  · intro s s1 hr h
    rcases hc s with ⟨mt, he⟩ | he
    · simp only [he, Outcome.finalState, Option.some.injEq] at h
      subst h
      refine ⟨by simp; omega, fun i hi => ?_, [], (List.append_nil _).symm⟩
      exact List.getElem?_append_left (by omega)
    · simp [he, Outcome.finalState] at h
  · intro s p s1 hr h
    rcases hc s with ⟨mt, he⟩ | he
    · rw [he] at h
      simp only [Outcome.ok.injEq] at h
      exact ⟨s.udata.length, h.1.symm, hr⟩
    · simp [he] at h

theorem grows_create_CXIndex (env : Env) (r : Nat) : Grows r (create_CXIndex env) :=
  grows_bind r _ _ (grows_of_steady r _ (steady_lua_toboolean _)) fun _ =>
    grows_bind r _ _ (grows_of_steady r _ (steady_lua_toboolean _)) fun _ =>
      grows_bind_res r _ _ _ (grows_of_cases r _ new_CXIndex_cases).1
        (grows_of_cases r _ new_CXIndex_cases).2 fun p hp => by
          obtain ⟨n, rfl, hn⟩ := hp
          exact grows_bind r _ _ (grows_of_steady r _ (steady_clang_createIndex _ _ _)) fun _ =>
            grows_bind r _ _ (grows_store r n _ hn) fun _ => grows_of_steady r _ (steady_pure _)

theorem grows_dispose_CXIndex (r : Nat) : Grows r dispose_CXIndex :=
  grows_bind r _ _ (grows_of_steady r _ (steady_luaL_checkudata _ _)) fun _ =>
    grows_bind r _ _ (grows_of_steady r _ (steady_loadIndex _)) fun _ =>
      grows_bind r _ _ (grows_of_steady r _ (steady_logCall _)) fun _ =>
        grows_of_steady r _ (steady_pure _)

theorem grows_dispose_CXTU (r : Nat) : Grows r dispose_CXTU :=
  grows_bind r _ _ (grows_of_steady r _ (steady_luaL_checkudata _ _)) fun _ =>
    grows_bind r _ _ (grows_of_steady r _ (steady_loadTU _)) fun _ =>
      grows_bind r _ _ (grows_of_steady r _ (steady_logCall _)) fun _ =>
        grows_of_steady r _ (steady_pure _)

theorem grows_parse_TU (env : Env) (r : Nat) : Grows r (parse_TU env) :=
  grows_bind r _ _ (grows_of_steady r _ (steady_luaL_checkudata _ _)) fun _ =>
    grows_bind r _ _ (grows_of_steady r _ (steady_lua_tostring _ _)) fun _ =>
      grows_bind_res r _ _ _ (grows_of_cases r _ new_CXTU_cases).1
        (grows_of_cases r _ new_CXTU_cases).2 fun p hp => by
          obtain ⟨n, rfl, hn⟩ := hp
          exact grows_bind r _ _ (grows_of_steady r _ (steady_loadIndex _)) fun _ =>
            grows_bind r _ _
              (grows_of_steady r _ (steady_clang_parseTranslationUnit _ _ _ _ _ _)) fun _ =>
              grows_bind r _ _ (grows_store r n _ hn) fun _ =>
                grows_of_steady r _ (steady_pure _)

theorem grows_get_TU_cursor (env : Env) (r : Nat) : Grows r (get_TU_cursor env) :=
  grows_bind r _ _ (grows_of_steady r _ (steady_luaL_checkudata _ _)) fun _ =>
    grows_bind_res r _ _ _ (grows_of_cases r _ new_CXCursor_cases).1
      (grows_of_cases r _ new_CXCursor_cases).2 fun p hp => by
        obtain ⟨n, rfl, hn⟩ := hp
        exact grows_bind r _ _ (grows_of_steady r _ (steady_loadTU _)) fun _ =>
          grows_bind r _ _
            (grows_of_steady r _ (steady_clang_getTranslationUnitCursor _ _)) fun _ =>
            grows_bind r _ _ (grows_store r n _ hn) fun _ =>
              grows_bind r _ _ (grows_of_steady r _ (steady_loadCursor _)) fun _ =>
                grows_bind r _ _
                  (grows_of_steady r _ (steady_clang_Cursor_isNull _ _)) fun isNull => by
                  by_cases h : isNull = 0
                  · simp only [h, ne_eq, not_true_eq_false, if_false]
                    exact grows_bind r _ _ (grows_of_steady r _ (steady_pure _)) fun _ =>
                      grows_of_steady r _ (steady_pure _)
                  · simp only [h, ne_eq, not_false_eq_true, if_true]
                    exact grows_bind r _ _ (grows_of_steady r _ (steady_push _)) fun _ =>
                      grows_of_steady r _ (steady_pure _)

theorem grows_get_cursor_spelling (env : Env) (r : Nat) : Grows r (get_cursor_spelling env) :=
  grows_bind r _ _ (grows_of_steady r _ (steady_luaL_checkudata _ _)) fun _ =>
    grows_bind r _ _ (grows_of_steady r _ (steady_loadCursor _)) fun _ =>
      grows_bind r _ _ (grows_of_steady r _ (steady_clang_getCursorSpelling _ _)) fun _ =>
        grows_bind r _ _ (grows_of_steady r _ (steady_clang_getCString _ _)) fun _ =>
          grows_bind r _ _
            (grows_bind r _ _ (grows_of_steady r _ (steady_cstring _)) fun _ =>
              grows_of_steady r _ (steady_lua_pushstring _)) fun _ =>
            grows_bind r _ _ (grows_of_steady r _ (steady_logCall _)) fun _ =>
              grows_of_steady r _ (steady_pure _)

theorem hostCall_grows (env : Env) (f : CFunction) (args : List LuaValue) (s s1 : LState)
    (h : (hostCall env f args s).finalState = some s1) :
    s.udata.length ≤ s1.udata.length ∧
    (∀ i, i < s.udata.length → s1.udata[i]? = s.udata[i]?) ∧
    ∃ ext, s1.trace = s.trace ++ ext := by
  have key : Grows s.udata.length (f.run env) := by
    cases f
    · exact grows_create_CXIndex env _
    · exact grows_dispose_CXIndex _
    · exact grows_parse_TU env _
    · exact grows_dispose_CXTU _
    · exact grows_get_TU_cursor env _
    · exact grows_get_cursor_spelling env _
    · intro s s1 _ h
      simp [CFunction.run, Outcome.finalState] at h
  have hk := key (LState.mk args s.tables s.udata s.registry s.lightMt s.trace) s1
    (Nat.le_refl _)
  rw [hostCall_eq_hostReturn] at h
  cases hr : f.run env (LState.mk args s.tables s.udata s.registry s.lightMt s.trace) with
  | ok n s2 =>
    simp only [hr, hostReturn, Outcome.finalState, Option.some.injEq] at h hk
    subst h
    exact hk rfl
  | raise e s2 =>
    simp only [hr, hostReturn, Outcome.finalState, Option.some.injEq] at h hk
    subst h
    exact hk rfl
  | undefined => simp [hr, hostReturn, Outcome.finalState] at h

theorem hostRun_persists (env : Env) (calls : List (CFunction × List LuaValue)) :
    ∀ (s s1 : LState), hostRun env calls s = some s1 →
      s1.registry = s.registry ∧ s.udata.length ≤ s1.udata.length ∧
      (∀ i, i < s.udata.length → s1.udata[i]? = s.udata[i]?) ∧
      ∃ ext, s1.trace = s.trace ++ ext := by
  induction calls with
  | nil =>
    intro s s1 h
    simp only [hostRun, Option.some.injEq] at h
    subst h
    exact ⟨rfl, Nat.le_refl _, fun _ _ => rfl, [], (List.append_nil _).symm⟩
  | cons c rest ih =>
    intro s s2 h
    obtain ⟨f, args⟩ := c
    simp only [hostRun] at h
    cases hf : (hostCall env f args s).finalState with
    | none => simp [hf] at h
    | some s1 =>
      simp only [hf] at h
      obtain ⟨r1, l1, b1, e1, t1⟩ := ih s1 s2 h
      obtain ⟨l0, b0, e0, t0⟩ := hostCall_grows env f args s s1 hf
      have r0 := hostCall_keeps_registry env f args s s1 hf
      refine ⟨by rw [r1, r0], by omega, fun i hi => ?_, e0 ++ e1, ?_⟩
      · rw [b1 i (by omega), b0 i hi]
      · rw [t1, t0, List.append_assoc]

theorem handlePayload_persists (s s1 : LState) (h : LuaValue) (tname : String) (p : Payload)
    (hreg : s1.registry = s.registry)
    (hbox : ∀ i, i < s.udata.length → s1.udata[i]? = s.udata[i]?)
    (hh : handlePayload s h tname = some p) : handlePayload s1 h tname = some p := by
  obtain ⟨r, m, rfl, hu, hr⟩ := handlePayload_some s h _ _ hh
  have hlt : r < s.udata.length := by
    by_contra hc
    rw [List.getElem?_eq_none (by omega)] at hu
    exact Option.noConfusion hu
  exact handlePayload_of s1 r m tname p (by rw [hbox r hlt, hu]) (by rw [hreg]; exact hr)

/-! ## Claims -/

/-- C1. Each of the five handle-taking operations (disposeIndex, parseTU, disposeTU,
getTUCursor, getCursorSpelling), called with any arguments whose first one is absent or is not
a userdata whose metatable is the registry entry of the expected name, raises the type error
for argument 1.  The state at the error is the state at entry: the native call log is
unchanged and no userdata or table has been allocated. -/
theorem handle_ops_reject_untagged (env : Env) (f : CFunction) (tname : String)
    (args : List LuaValue) (s : LState)
    (hf : expectedTag f = some tname)
    (h : hasTag s args.head? tname = false) :
    hostCall env f args s = .raise (.typeMismatch 1 tname) { s with stack := args } := by
  have hc : luaL_checkudata 1 tname { s with stack := args } =
      .raise (.typeMismatch 1 tname) { s with stack := args } := by
    apply checkudata_untagged
    rw [index2value_one]
    exact h
  cases f <;> simp [expectedTag] at hf <;> subst hf <;>
    simp [hostCall, CFunction.run, dispose_CXIndex, parse_TU, dispose_CXTU, get_TU_cursor,
      get_cursor_spelling, to_CXIndex, to_CXTU, to_CXCursor, hc]

/-- Witness of C1: parseTU called with a translation unit handle where an Index handle is
expected. -/
theorem handle_ops_reject_untagged_witness :
    hostCall sampleEnv .parse_TU [.userdata 1, .string "main.c"] sessionState =
      .raise (.typeMismatch 1 INDEX_METATABLE)
        { sessionState with stack := [.userdata 1, .string "main.c"] } :=
  handle_ops_reject_untagged sampleEnv .parse_TU INDEX_METATABLE
    [.userdata 1, .string "main.c"] sessionState (by decide) (by decide)


/-- C2, as stated, fails: on the session state the second disposeIndex on the same Index handle
returns normally, like the first one, and the log then holds `clang_disposeIndex` on the
payload twice. -/
theorem dispose_twice_counterexample :
    hostCall sampleEnv .dispose_CXIndex [.userdata 0] sessionState = .ok [] disposedOnce ∧
    hostCall sampleEnv .dispose_CXIndex [.userdata 0] disposedOnce = .ok [] disposedTwice ∧
    callCount (.disposeIndex 4096) disposedTwice.trace = 2 := by
  refine ⟨?_, ?_, by decide⟩
  · exact hostCall_dispose_CXIndex sampleEnv sessionState (.userdata 0) [] 4096 (by decide)
  · exact hostCall_dispose_CXIndex sampleEnv disposedOnce (.userdata 0) [] 4096 (by decide)

/-- C2, amended. For every handle of kind Index or TranslationUnit whose payload has not been
released yet, the first call of its dispose operation returns no value and appends one call of
the native destructor on the payload to the log.  The binding records nothing else: the handle
is accepted as before, so the second call raises no error at all (no DoubleDisposeError) and
is nothing but the native destructor on the same payload, entered in a state whose log
already holds that release, followed by the return of no value.  The destructor is thus
invoked on the payload once per call, twice in all; what libclang does on the second
invocation (a double free) is not stated. -/
theorem dispose_twice_forwards_payload (env : Env) (s : LState) (h : LuaValue) :
    (∀ v : CXIndex, handlePayload s h INDEX_METATABLE = some (.index v) →
      NativeCall.disposeIndex v ∉ s.trace →
      hostCall env .dispose_CXIndex [h] s =
        .ok [] (LState.mk [h] s.tables s.udata s.registry s.lightMt
          (s.trace ++ [.disposeIndex v])) ∧
      handlePayload (LState.mk [h] s.tables s.udata s.registry s.lightMt
          (s.trace ++ [.disposeIndex v])) h INDEX_METATABLE = some (.index v) ∧
      (∀ e st, hostCall env .dispose_CXIndex [h]
          (LState.mk [h] s.tables s.udata s.registry s.lightMt
            (s.trace ++ [.disposeIndex v])) ≠ .raise e st) ∧
      hostCall env .dispose_CXIndex [h]
          (LState.mk [h] s.tables s.udata s.registry s.lightMt
            (s.trace ++ [.disposeIndex v])) =
        hostReturn ((clang_disposeIndex v >>= fun _ => pure 0)
          (LState.mk [h] s.tables s.udata s.registry s.lightMt
            (s.trace ++ [.disposeIndex v])))) ∧
    (∀ t : CXTranslationUnit, handlePayload s h TU_METATABLE = some (.tu t) →
      NativeCall.disposeTranslationUnit t ∉ s.trace →
      hostCall env .dispose_CXTU [h] s =
        .ok [] (LState.mk [h] s.tables s.udata s.registry s.lightMt
          (s.trace ++ [.disposeTranslationUnit t])) ∧
      handlePayload (LState.mk [h] s.tables s.udata s.registry s.lightMt
          (s.trace ++ [.disposeTranslationUnit t])) h TU_METATABLE = some (.tu t) ∧
      (∀ e st, hostCall env .dispose_CXTU [h]
          (LState.mk [h] s.tables s.udata s.registry s.lightMt
            (s.trace ++ [.disposeTranslationUnit t])) ≠ .raise e st) ∧
      hostCall env .dispose_CXTU [h]
          (LState.mk [h] s.tables s.udata s.registry s.lightMt
            (s.trace ++ [.disposeTranslationUnit t])) =
        hostReturn ((clang_disposeTranslationUnit t >>= fun _ => pure 0)
          (LState.mk [h] s.tables s.udata s.registry s.lightMt
            (s.trace ++ [.disposeTranslationUnit t])))) := by
  constructor
  · intro v hh _
    have h2 := hostCall_dispose_CXIndex env
      (LState.mk [h] s.tables s.udata s.registry s.lightMt (s.trace ++ [.disposeIndex v]))
      h [] v hh
    refine ⟨hostCall_dispose_CXIndex env s h [] v hh, hh, ?_,
      hostCall_dispose_CXIndex_reaches env _ h [] v hh⟩
    intro e st hc
    rw [h2] at hc
    exact Outcome.noConfusion hc
  · intro t hh _
    have h2 := hostCall_dispose_CXTU env
      (LState.mk [h] s.tables s.udata s.registry s.lightMt
        (s.trace ++ [.disposeTranslationUnit t]))
      h [] t hh
    refine ⟨hostCall_dispose_CXTU env s h [] t hh, hh, ?_,
      hostCall_dispose_CXTU_reaches env _ h [] t hh⟩
    intro e st hc
    rw [h2] at hc
    exact Outcome.noConfusion hc

/-- Witness of the amended C2: the translation unit handle of the session state. -/
theorem dispose_twice_forwards_payload_witness :
    hostCall sampleEnv .dispose_CXTU [.userdata 1] sessionState =
      .ok [] (LState.mk [.userdata 1] sessionState.tables sessionState.udata
        sessionState.registry sessionState.lightMt
        (sessionState.trace ++ [.disposeTranslationUnit 8192])) ∧
    handlePayload (LState.mk [.userdata 1] sessionState.tables sessionState.udata
        sessionState.registry sessionState.lightMt
        (sessionState.trace ++ [.disposeTranslationUnit 8192])) (.userdata 1) TU_METATABLE =
      some (.tu 8192) ∧
    (∀ e st, hostCall sampleEnv .dispose_CXTU [.userdata 1]
        (LState.mk [.userdata 1] sessionState.tables sessionState.udata
          sessionState.registry sessionState.lightMt
          (sessionState.trace ++ [.disposeTranslationUnit 8192])) ≠ .raise e st) ∧
    hostCall sampleEnv .dispose_CXTU [.userdata 1]
        (LState.mk [.userdata 1] sessionState.tables sessionState.udata
          sessionState.registry sessionState.lightMt
          (sessionState.trace ++ [.disposeTranslationUnit 8192])) =
      hostReturn ((clang_disposeTranslationUnit 8192 >>= fun _ => pure 0)
        (LState.mk [.userdata 1] sessionState.tables sessionState.udata
          sessionState.registry sessionState.lightMt
          (sessionState.trace ++ [.disposeTranslationUnit 8192]))) :=
  (dispose_twice_forwards_payload sampleEnv sessionState (.userdata 1)).2 8192
    (by decide) (by decide)

/-- C3, as stated, fails: on the state reached by disposeIndex on the Index handle, parseTU on
that handle returns a new handle and `clang_parseTranslationUnit` has received the payload of
the disposed handle. -/
theorem use_after_dispose_counterexample :
    hostCall sampleEnv .parse_TU [.userdata 0, .string "main.c"] disposedOnce =
      .ok [.userdata 3] parsedAfterDispose ∧
    parsedAfterDispose.trace.getLast? =
      some (.parseTranslationUnit 4096 none [some "main.c"] 0 0) := by
  refine ⟨?_, by decide⟩
  have := hostCall_parse_TU sampleEnv disposedOnce (.userdata 0) "main.c" [] 4096 1
    (by decide) (by decide)
  rw [this]
  decide

/-- C3, amended. Let a handle have been passed to its dispose operation, and let any sequence
of further calls into the module have followed.  The handle is then still accepted by the type
check, with the same payload, and the release of that payload is in the log.  A parseTU on a
disposed Index handle, or a getTUCursor on a disposed translation unit handle, raises no error
at all (no UseAfterDisposeError): after the check and the allocation of the result block it is
nothing but the native call `clang_parseTranslationUnit` (with the file name that
`lua_tostring` finds in argument 2) or `clang_getTranslationUnitCursor` on the payload of the
disposed handle, followed by the rest of the source function.  What libclang does with the
released payload is not stated. -/
theorem use_after_dispose_reaches_native (env : Env) (s s0 s1 : LState) (h : LuaValue)
    (calls : List (CFunction × List LuaValue)) (rest : List LuaValue)
    (hinit : initialised s = true) :
    (∀ v : CXIndex, handlePayload s h INDEX_METATABLE = some (.index v) →
      hostCall env .dispose_CXIndex [h] s = .ok [] s0 → hostRun env calls s0 = some s1 →
      handlePayload s1 h INDEX_METATABLE = some (.index v) ∧
      NativeCall.disposeIndex v ∈ s1.trace ∧
      (∀ e st, hostCall env .parse_TU (h :: rest) s1 ≠ .raise e st) ∧
      ∃ fname st mt,
        lua_tostring env 2
            (LState.mk (h :: rest) s1.tables s1.udata s1.registry s1.lightMt s1.trace) =
          .ok fname (LState.mk st s1.tables s1.udata s1.registry s1.lightMt s1.trace) ∧
        tagOf s1 TU_METATABLE = some mt ∧
        hostCall env .parse_TU (h :: rest) s1 =
          hostReturn
            ((do
                let x ← clang_parseTranslationUnit env v none [fname] 0 CXTranslationUnit_None
                store (.box s1.udata.length) (.tu x)
                return 1 : M Nat)
              (LState.mk (st ++ [.userdata s1.udata.length]) s1.tables
                (s1.udata ++ [UData.mk .uninit (some mt)]) s1.registry s1.lightMt
                s1.trace))) ∧
    (∀ t : CXTranslationUnit, handlePayload s h TU_METATABLE = some (.tu t) →
      hostCall env .dispose_CXTU [h] s = .ok [] s0 → hostRun env calls s0 = some s1 →
      handlePayload s1 h TU_METATABLE = some (.tu t) ∧
      NativeCall.disposeTranslationUnit t ∈ s1.trace ∧
      (∀ e st, hostCall env .get_TU_cursor (h :: rest) s1 ≠ .raise e st) ∧
      ∃ mc,
        tagOf s1 CURSOR_METATABLE = some mc ∧
        hostCall env .get_TU_cursor (h :: rest) s1 =
          hostReturn
            ((do
                let c ← clang_getTranslationUnitCursor env t
                store (.box s1.udata.length) (.cursor c)
                let c1 ← loadCursor (.box s1.udata.length)
                let isNull ← clang_Cursor_isNull env c1
                if isNull ≠ 0 then
                  lua_pushnil
                return 1 : M Nat)
              (LState.mk (h :: rest ++ [.userdata s1.udata.length]) s1.tables
                (s1.udata ++ [UData.mk .uninit (some mc)]) s1.registry s1.lightMt
                s1.trace))) := by
  constructor
  · intro v hh hd hrun
    rw [hostCall_dispose_CXIndex env s h [] v hh] at hd
    simp only [Outcome.ok.injEq, true_and] at hd
    subst hd
    obtain ⟨hreg, _, hbox, ext, htr⟩ := hostRun_persists env calls _ s1 hrun
    have hh1 : handlePayload s1 h INDEX_METATABLE = some (.index v) :=
      handlePayload_persists _ s1 h _ _ hreg hbox hh
    have hinit1 : initialised s1 = true := by
      simpa [initialised, tagOf, hreg] using hinit
    obtain ⟨mi, mt, mc, _, htu, _, _⟩ := initialised_tags s1 hinit1
    obtain ⟨fname, st, hts, hp⟩ := hostCall_parse_TU_any env s1 h rest v mt hh1 htu
    refine ⟨hh1, ?_, ?_, fname, st, mt, hts, by simp [tagOf, htu], ?_⟩
    · rw [htr]
      simp
    · intro e st2 hc
      rw [hp] at hc
      exact Outcome.noConfusion hc
    · exact hostCall_parse_TU_reaches env s1 h rest v mt fname st hh1 htu hts
  · intro t hh hd hrun
    rw [hostCall_dispose_CXTU env s h [] t hh] at hd
    simp only [Outcome.ok.injEq, true_and] at hd
    subst hd
    obtain ⟨hreg, _, hbox, ext, htr⟩ := hostRun_persists env calls _ s1 hrun
    have hh1 : handlePayload s1 h TU_METATABLE = some (.tu t) :=
      handlePayload_persists _ s1 h _ _ hreg hbox hh
    have hinit1 : initialised s1 = true := by
      simpa [initialised, tagOf, hreg] using hinit
    obtain ⟨mi, mt, mc, _, _, hcur, _⟩ := initialised_tags s1 hinit1
    have hp := hostCall_get_TU_cursor env s1 h rest t mc hh1 hcur
    refine ⟨hh1, ?_, ?_, mc, by simp [tagOf, hcur], ?_⟩
    · rw [htr]
      simp
    · intro e st2 hc
      rw [hp] at hc
      exact Outcome.noConfusion hc
    · exact hostCall_get_TU_cursor_reaches env s1 h rest t mc hh1 hcur

/-- Witness of the amended C3: the Index handle of the session state is disposed, another
index is created, and parseTU is then called on the disposed handle. -/
theorem use_after_dispose_reaches_native_witness :
    handlePayload laterState (.userdata 0) INDEX_METATABLE = some (.index 4096) ∧
    NativeCall.disposeIndex 4096 ∈ laterState.trace ∧
    (∀ e st, hostCall sampleEnv .parse_TU [.userdata 0, .string "main.c"] laterState ≠
      .raise e st) ∧
    ∃ fname st mt,
      lua_tostring sampleEnv 2
          (LState.mk [.userdata 0, .string "main.c"] laterState.tables laterState.udata
            laterState.registry laterState.lightMt laterState.trace) =
        .ok fname (LState.mk st laterState.tables laterState.udata laterState.registry
          laterState.lightMt laterState.trace) ∧
      tagOf laterState TU_METATABLE = some mt ∧
      hostCall sampleEnv .parse_TU [.userdata 0, .string "main.c"] laterState =
        hostReturn
          ((do
              let x ← clang_parseTranslationUnit sampleEnv 4096 none [fname] 0
                CXTranslationUnit_None
              store (.box laterState.udata.length) (.tu x)
              return 1 : M Nat)
            (LState.mk (st ++ [.userdata laterState.udata.length]) laterState.tables
              (laterState.udata ++ [UData.mk .uninit (some mt)]) laterState.registry
              laterState.lightMt laterState.trace)) :=
  (use_after_dispose_reaches_native sampleEnv sessionState disposedOnce laterState
    (.userdata 0) [(.create_CXIndex, [])] [.string "main.c"] (by decide)).1 4096
    (by decide) (by decide) (by decide)

/-- C4. Round trip. In an initialised state, for each of the kinds Index, TranslationUnit and
Cursor and every native value, the constructor of the kind followed by the store of the value
into the returned block yields a handle on top of the stack; wherever that handle is later
found on a stack, the checker of the kind accepts it, returns the same block, and the block
reads back the value that was stored. -/
theorem wrap_unwrap_roundtrip (s : LState) (hinit : initialised s = true) :
    (∀ v : CXIndex, ∃ p s1 s2 h,
      new_CXIndex s = .ok p s1 ∧ store p (.index v) s1 = .ok () s2 ∧
      s2.stack.getLast? = some h ∧
      ∀ (st : List LuaValue) (n : Int), index2value st n = some h →
        to_CXIndex n { s2 with stack := st } = .ok p { s2 with stack := st } ∧
        loadIndex p { s2 with stack := st } = .ok v { s2 with stack := st }) ∧
    (∀ v : CXTranslationUnit, ∃ p s1 s2 h,
      new_CXTU s = .ok p s1 ∧ store p (.tu v) s1 = .ok () s2 ∧
      s2.stack.getLast? = some h ∧
      ∀ (st : List LuaValue) (n : Int), index2value st n = some h →
        to_CXTU n { s2 with stack := st } = .ok p { s2 with stack := st } ∧
        loadTU p { s2 with stack := st } = .ok v { s2 with stack := st }) ∧
    (∀ v : CXCursor, ∃ p s1 s2 h,
      new_CXCursor s = .ok p s1 ∧ store p (.cursor v) s1 = .ok () s2 ∧
      s2.stack.getLast? = some h ∧
      ∀ (st : List LuaValue) (n : Int), index2value st n = some h →
        to_CXCursor n { s2 with stack := st } = .ok p { s2 with stack := st } ∧
        loadCursor p { s2 with stack := st } = .ok v { s2 with stack := st }) := by
  obtain ⟨mi, mt, mc, hi, ht, hc, _⟩ := initialised_tags s hinit
  refine ⟨?_, ?_, ?_⟩
  · intro v
    refine ⟨_, _,
      LState.mk (s.stack ++ [.userdata s.udata.length]) s.tables
        (s.udata ++ [UData.mk (.index v) (some mi)]) s.registry s.lightMt s.trace,
      .userdata s.udata.length, new_CXIndex_tagged s mi hi, ?_, ?_, ?_⟩
    · simp only [store, List.getElem?_concat_length, set_concat_length]
    · simp
    · intro st n hn
      constructor
      · exact checkudata_handle _ n INDEX_METATABLE s.udata.length mi
          (UData.mk (.index v) (some mi)) hn (by simp) rfl hi
      · simp [loadIndex, load]
  · intro v
    refine ⟨_, _,
      LState.mk (s.stack ++ [.userdata s.udata.length]) s.tables
        (s.udata ++ [UData.mk (.tu v) (some mt)]) s.registry s.lightMt s.trace,
      .userdata s.udata.length, new_CXTU_tagged s mt ht, ?_, ?_, ?_⟩
    · simp only [store, List.getElem?_concat_length, set_concat_length]
    · simp
    · intro st n hn
      constructor
      · exact checkudata_handle _ n TU_METATABLE s.udata.length mt
          (UData.mk (.tu v) (some mt)) hn (by simp) rfl ht
      · simp [loadTU, load]
  · intro v
    refine ⟨_, _,
      LState.mk (s.stack ++ [.userdata s.udata.length]) s.tables
        (s.udata ++ [UData.mk (.cursor v) (some mc)]) s.registry s.lightMt s.trace,
      .userdata s.udata.length, new_CXCursor_tagged s mc hc, ?_, ?_, ?_⟩
    · simp only [store, List.getElem?_concat_length, set_concat_length]
    · simp
    · intro st n hn
      constructor
      · exact checkudata_handle _ n CURSOR_METATABLE s.udata.length mc
          (UData.mk (.cursor v) (some mc)) hn (by simp) rfl hc
      · simp [loadCursor, load]

/-- Witness of C4: the state right after module initialisation and the Index value 4096. -/
theorem wrap_unwrap_roundtrip_witness :
    ∃ p s1 s2 h,
      new_CXIndex loadedState = .ok p s1 ∧ store p (.index 4096) s1 = .ok () s2 ∧
      s2.stack.getLast? = some h ∧
      ∀ (st : List LuaValue) (n : Int), index2value st n = some h →
        to_CXIndex n { s2 with stack := st } = .ok p { s2 with stack := st } ∧
        loadIndex p { s2 with stack := st } = .ok 4096 { s2 with stack := st } :=
  (wrap_unwrap_roundtrip loadedState (by decide)).1 4096

/-- C5, as stated, fails: after `createIndex(false, false)`, parseTU of `nonexistent.c`, for
which the native parse returns the null translation unit, returns a handle tagged as
translation unit whose payload is that null value; no nil and no error reaches the host. -/
theorem parse_failure_counterexample :
    hostCall sampleEnv .create_CXIndex [.boolean false, .boolean false] loadedState =
      .ok [.userdata 0] indexState ∧
    hostCall sampleEnv .parse_TU [.userdata 0, .string "nonexistent.c"] indexState =
      .ok [.userdata 1] nullUnitState ∧
    handlePayload nullUnitState (.userdata 1) TU_METATABLE = some (.tu 0) := by
  refine ⟨?_, ?_, by decide⟩
  · rw [hostCall_create_CXIndex sampleEnv loadedState _ 0 (by decide)]
    decide
  · rw [hostCall_parse_TU sampleEnv indexState (.userdata 0) "nonexistent.c" [] 4096 1
      (by decide) (by decide)]
    decide

/-- C5, amended. For every valid Index handle and every file name, parseTU in an initialised
state returns exactly one value: a new handle tagged as translation unit whose payload is the
result of `clang_parseTranslationUnit` verbatim, the null translation unit included. -/
theorem parse_TU_wraps_native_result (env : Env) (s : LState) (h : LuaValue) (v : CXIndex)
    (file : String) (hinit : initialised s = true)
    (hh : handlePayload s h INDEX_METATABLE = some (.index v)) :
    ∃ s1, hostCall env .parse_TU [h, .string file] s = .ok [.userdata s.udata.length] s1 ∧
      handlePayload s1 (.userdata s.udata.length) TU_METATABLE =
        some (.tu (env.parseTranslationUnit s.trace v none [some file] 0 0)) ∧
      s1.trace = s.trace ++ [.parseTranslationUnit v none [some file] 0 0] := by
  obtain ⟨mi, mt, mc, _, htu, _, _⟩ := initialised_tags s hinit
  refine ⟨_, hostCall_parse_TU env s h file [] v mt hh htu, ?_, rfl⟩
  exact handlePayload_of _ _ mt _ _ (by simp) htu

/-- Witness of the amended C5: the Index handle of the session state and `nonexistent.c`. -/
theorem parse_TU_wraps_native_result_witness :
    ∃ s1, hostCall sampleEnv .parse_TU [.userdata 0, .string "nonexistent.c"] sessionState =
        .ok [.userdata sessionState.udata.length] s1 ∧
      handlePayload s1 (.userdata sessionState.udata.length) TU_METATABLE =
        some (.tu (sampleEnv.parseTranslationUnit sessionState.trace 4096 none
          [some "nonexistent.c"] 0 0)) ∧
      s1.trace = sessionState.trace ++
        [.parseTranslationUnit 4096 none [some "nonexistent.c"] 0 0] :=
  parse_TU_wraps_native_result sampleEnv sessionState (.userdata 0) 4096 "nonexistent.c"
    (by decide) (by decide)


/-- C6. For every valid translation unit handle, getTUCursor in an initialised state returns
exactly one value.  When `clang_Cursor_isNull` is true of the cursor that
`clang_getTranslationUnitCursor` returned, that value is nil (and so is not the handle that
wraps the null cursor); otherwise it is a new handle tagged as Cursor whose payload is that
cursor. -/
theorem get_TU_cursor_result (env : Env) (s : LState) (h : LuaValue) (rest : List LuaValue)
    (t : CXTranslationUnit) (hinit : initialised s = true)
    (hh : handlePayload s h TU_METATABLE = some (.tu t)) :
    ∃ r s1, hostCall env .get_TU_cursor (h :: rest) s = .ok [r] s1 ∧
      (env.Cursor_isNull (s.trace ++ [.getTranslationUnitCursor t])
          (env.getTranslationUnitCursor s.trace t) ≠ 0 →
        r = .nil ∧ r ≠ .userdata s.udata.length) ∧
      (env.Cursor_isNull (s.trace ++ [.getTranslationUnitCursor t])
          (env.getTranslationUnitCursor s.trace t) = 0 →
        r = .userdata s.udata.length ∧
        handlePayload s1 r CURSOR_METATABLE =
          some (.cursor (env.getTranslationUnitCursor s.trace t))) := by
  obtain ⟨mi, mt, mc, _, _, hcur, _⟩ := initialised_tags s hinit
  refine ⟨_, _, hostCall_get_TU_cursor env s h rest t mc hh hcur, ?_, ?_⟩
  · intro hn
    simp [hn]
  · intro hn
    simp only [hn, ne_eq, not_true_eq_false, if_false, true_and]
    exact handlePayload_of _ _ mc _ _ (by simp) hcur

/-- Witness of C6: the translation unit handle of the session state, whose root cursor is not
null. -/
theorem get_TU_cursor_result_witness :
    ∃ r s1, hostCall sampleEnv .get_TU_cursor [.userdata 1] sessionState = .ok [r] s1 ∧
      (sampleEnv.Cursor_isNull (sessionState.trace ++ [.getTranslationUnitCursor 8192])
          (sampleEnv.getTranslationUnitCursor sessionState.trace 8192) ≠ 0 →
        r = .nil ∧ r ≠ .userdata sessionState.udata.length) ∧
      (sampleEnv.Cursor_isNull (sessionState.trace ++ [.getTranslationUnitCursor 8192])
          (sampleEnv.getTranslationUnitCursor sessionState.trace 8192) = 0 →
        r = .userdata sessionState.udata.length ∧
        handlePayload s1 r CURSOR_METATABLE =
          some (.cursor (sampleEnv.getTranslationUnitCursor sessionState.trace 8192))) :=
  get_TU_cursor_result sampleEnv sessionState (.userdata 1) [] 8192 (by decide) (by decide)

/-- C7, as stated, fails: when `clang_getCString` returns NULL for the spelling of the cursor,
getCursorSpelling returns nil, which is not a string. -/
theorem spelling_null_counterexample :
    handlePayload sessionState (.userdata 2) CURSOR_METATABLE =
      some (.cursor { kind := 300, xdata := 0, data := (0, 0, 8192) }) ∧
    hostCall nullStringEnv .get_cursor_spelling [.userdata 2] sessionState =
      .ok [.nil] nullSpellingState := by
  refine ⟨by decide, ?_⟩
  rw [hostCall_get_cursor_spelling nullStringEnv sessionState (.userdata 2) []
    { kind := 300, xdata := 0, data := (0, 0, 8192) } (by decide)]
  decide

/-- C7, amended. For every valid Cursor handle, getCursorSpelling returns exactly one value:
the Lua string with the characters of the native spelling string when `clang_getCString`
returns a pointer, and nil when it returns NULL.  The log grows by exactly
`clang_getCursorSpelling`, `clang_getCString` and `clang_disposeString`, in this order, so
the native string is released once per call, as the last step before the return.  The
characters are read through the pointer while the buffer is alive: the call returns normally,
which a read after the release would not, and in the state at return a read through the same
pointer is undefined. -/
theorem get_cursor_spelling_result (env : Env) (s : LState) (h : LuaValue)
    (rest : List LuaValue) (c : CXCursor)
    (hh : handlePayload s h CURSOR_METATABLE = some (.cursor c)) :
    hostCall env .get_cursor_spelling (h :: rest) s =
      .ok [match env.getCString (s.trace ++ [.getCursorSpelling c])
              (env.getCursorSpelling s.trace c) with
           | some str => .string str
           | none => .nil]
        (LState.mk
          (h :: rest ++
            [match env.getCString (s.trace ++ [.getCursorSpelling c])
               (env.getCursorSpelling s.trace c) with
             | some str => .string str
             | none => .nil])
          s.tables s.udata s.registry s.lightMt
          (s.trace ++ [.getCursorSpelling c,
            .getCString (env.getCursorSpelling s.trace c),
            .disposeString (env.getCursorSpelling s.trace c)])) ∧
    callCount (.disposeString (env.getCursorSpelling s.trace c))
      [.getCursorSpelling c, .getCString (env.getCursorSpelling s.trace c),
       .disposeString (env.getCursorSpelling s.trace c)] = 1 ∧
    (∀ str st, cstring (some (CStr.mk (env.getCursorSpelling s.trace c)
        (s.trace.length + 2) str))
      (LState.mk st s.tables s.udata s.registry s.lightMt
        (s.trace ++ [.getCursorSpelling c,
          .getCString (env.getCursorSpelling s.trace c)])) =
      .ok (some str) (LState.mk st s.tables s.udata s.registry s.lightMt
        (s.trace ++ [.getCursorSpelling c,
          .getCString (env.getCursorSpelling s.trace c)]))) ∧
    (∀ str st, cstring (some (CStr.mk (env.getCursorSpelling s.trace c)
        (s.trace.length + 2) str))
      (LState.mk st s.tables s.udata s.registry s.lightMt
        (s.trace ++ [.getCursorSpelling c,
          .getCString (env.getCursorSpelling s.trace c),
          .disposeString (env.getCursorSpelling s.trace c)])) = .undefined) := by
  refine ⟨hostCall_get_cursor_spelling env s h rest c hh, by simp [callCount], ?_, ?_⟩
  · intro str st
    have := cstring_live (some (CStr.mk (env.getCursorSpelling s.trace c)
      (s.trace.length + 2) str))
      (LState.mk st s.tables s.udata s.registry s.lightMt
        (s.trace ++ [.getCursorSpelling c, .getCString (env.getCursorSpelling s.trace c)]))
      (by
        intro q hq
        simp only [Option.some.injEq] at hq
        subst hq
        simp)
    simpa using this
  · intro str st
    apply cstring_released
    simp

/-- Witness of the amended C7: the Cursor handle of the session state, whose spelling is
`main.c`. -/
theorem get_cursor_spelling_result_witness :
    hostCall sampleEnv .get_cursor_spelling [.userdata 2] sessionState =
      .ok [.string "main.c"]
        (LState.mk [.userdata 2, .string "main.c"] sessionState.tables sessionState.udata
          sessionState.registry sessionState.lightMt
          (sessionState.trace ++
            [.getCursorSpelling { kind := 300, xdata := 0, data := (0, 0, 8192) },
             .getCString { data := 8192, private_flags := 1 },
             .disposeString { data := 8192, private_flags := 1 }])) :=
  (get_cursor_spelling_result sampleEnv sessionState (.userdata 2) []
    { kind := 300, xdata := 0, data := (0, 0, 8192) } (by decide)).1

/-- C8, at the failing input. `luaopen_luaclang` on a fresh state registers `Clang.Index`,
`Clang.TU` and `Clang.Cursor` but leaves `Clang.Type` without registry entry, and a handle
built by `new_CXType` in the loaded state carries no metatable at all. -/
theorem type_tag_not_registered :
    luaopen_luaclang freshState = .ok 1 loadedState ∧
    tagOf loadedState INDEX_METATABLE = some 0 ∧
    tagOf loadedState TU_METATABLE = some 1 ∧
    tagOf loadedState CURSOR_METATABLE = some 2 ∧
    tagOf loadedState TYPE_METATABLE = none ∧
    new_CXType loadedState = .ok (.box 0) typeBoxState ∧
    userdataMetatable typeBoxState (.userdata 0) = none ∧
    handlePayload typeBoxState (.userdata 0) TYPE_METATABLE = none := by
  refine ⟨?_, by decide, by decide, by decide, by decide, ?_, by decide, by decide⟩
  · exact luaopen_fresh_loaded
  · rw [new_CXType_untagged loadedState (by decide)]
    decide

/-- C9. For all arguments, createIndex in an initialised state returns exactly one value, a new
handle tagged as Index whose payload is the result of the single `clang_createIndex` call it
makes; each flag passed to that call is 0 when the argument is absent, nil or false and 1 for
every other value. -/
theorem create_CXIndex_result (env : Env) (s : LState) (args : List LuaValue) (x y : Int)
    (hinit : initialised s = true)
    (hx : x = if args[0]? = none ∨ args[0]? = some .nil ∨ args[0]? = some (.boolean false)
      then 0 else 1)
    (hy : y = if args[1]? = none ∨ args[1]? = some .nil ∨ args[1]? = some (.boolean false)
      then 0 else 1) :
    ∃ s1, hostCall env .create_CXIndex args s = .ok [.userdata s.udata.length] s1 ∧
      s1.trace = s.trace ++ [.createIndex x y] ∧
      handlePayload s1 (.userdata s.udata.length) INDEX_METATABLE =
        some (.index (env.createIndex s.trace x y)) := by
  obtain ⟨mi, mt, mc, hi, _, _, _⟩ := initialised_tags s hinit
  subst hx hy
  refine ⟨_, hostCall_create_CXIndex env s args mi hi, rfl, ?_⟩
  exact handlePayload_of _ _ mi _ _ (by simp) hi

/-- Witness of C9: one string argument and the second argument absent. -/
theorem create_CXIndex_result_witness :
    ∃ s1, hostCall sampleEnv .create_CXIndex [.string "yes"] loadedState =
        .ok [.userdata loadedState.udata.length] s1 ∧
      s1.trace = loadedState.trace ++ [.createIndex 1 0] ∧
      handlePayload s1 (.userdata loadedState.udata.length) INDEX_METATABLE =
        some (.index (sampleEnv.createIndex loadedState.trace 1 0)) :=
  create_CXIndex_result sampleEnv loadedState [.string "yes"] 1 0 (by decide) (by decide)
    (by decide)

/-- C10. When each of the three metatable names is either not registered yet (first load) or
bound to a table without metatable (repeated load), `luaopen_luaclang` returns exactly one
value, a new table without metatable whose fields are exactly the six names createIndex,
disposeIndex, parseTU, disposeTU, getTUCursor and getCursorSpelling, each bound to its C
function. -/
theorem luaopen_module_table (s : LState) (hi : loadable s INDEX_METATABLE = true)
    (ht : loadable s TU_METATABLE = true) (hc : loadable s CURSOR_METATABLE = true) :
    ∃ s1 t, luaopen_luaclang s = .ok 1 s1 ∧ results 1 s1 = [.table t] ∧
      s1.tables[t]? = some (LTable.mk
        [(.string "createIndex", .cfunction .create_CXIndex),
         (.string "disposeIndex", .cfunction .dispose_CXIndex),
         (.string "parseTU", .cfunction .parse_TU),
         (.string "disposeTU", .cfunction .dispose_CXTU),
         (.string "getTUCursor", .cfunction .get_TU_cursor),
         (.string "getCursorSpelling", .cfunction .get_cursor_spelling)] none) ∧
      s.tables.length ≤ t := by
  obtain ⟨s1, v1, e1, hs1, hl1, hp1⟩ := new_metatable_any s INDEX_METATABLE hi
  obtain ⟨s2, v2, e2, hs2, hl2, hp2⟩ := new_metatable_any s1 TU_METATABLE (hp1 _ ht)
  obtain ⟨s3, v3, e3, hs3, hl3, _⟩ := new_metatable_any s2 CURSOR_METATABLE (hp2 _ (hp1 _ hc))
  obtain ⟨s5, e5, hs5, ht5⟩ := luaL_setfuncs_top clang_function
    (LState.mk (s3.stack ++ [.table s3.tables.length])
      (s3.tables ++ [LTable.mk [] none]) s3.udata s3.registry s3.lightMt s3.trace)
    s3.stack s3.tables.length [] rfl (by simp)
  obtain ⟨s6, e6, hs6, ht6⟩ := luaL_setfuncs_top index_functions s5 _ _ _ hs5 ht5
  obtain ⟨s7, e7, hs7, ht7⟩ := luaL_setfuncs_top tu_functions s6 _ _ _ hs6 ht6
  obtain ⟨s8, e8, hs8, ht8⟩ := luaL_setfuncs_top cursor_functions s7 _ _ _ hs7 ht7
  refine ⟨s8, s3.tables.length, ?_, ?_, ?_, by omega⟩
  · simp only [luaopen_luaclang, bind_apply, pure_apply, e1, e2, e3, lua_newtable, e5, e6, e7,
      e8]
  · unfold results
    rw [hs8]
    exact drop_top_one _ _
  · rw [ht8, moduleFields_eq]
    rfl

/-- Witness of C10: a fresh Lua state. -/
theorem luaopen_module_table_witness :
    ∃ s1 t, luaopen_luaclang freshState = .ok 1 s1 ∧ results 1 s1 = [.table t] ∧
      s1.tables[t]? = some (LTable.mk
        [(.string "createIndex", .cfunction .create_CXIndex),
         (.string "disposeIndex", .cfunction .dispose_CXIndex),
         (.string "parseTU", .cfunction .parse_TU),
         (.string "disposeTU", .cfunction .dispose_CXTU),
         (.string "getTUCursor", .cfunction .get_TU_cursor),
         (.string "getCursorSpelling", .cfunction .get_cursor_spelling)] none) ∧
      freshState.tables.length ≤ t :=
  luaopen_module_table freshState (by decide) (by decide) (by decide)

end LuaClang
